import Mathlib

/-!
Shallow embedding of the MemState transactional fact store
(`memstate/storage.py`, `memstate/schemas.py`, `memstate/constants.py`,
`memstate/exceptions.py`, `memstate/backends/inmemory.py`).

Python dicts are modelled as insertion-ordered association lists, JSON
payload values as the inductive `Value`, exceptions as the inductive
`MError`, and the in-process store object as the explicit record `State`.
Hook chains are modelled by a boolean failure predicate (a hook chain
either completes or raises, wrapped as `HookError`); the notifications the
engine emits to hooks are recorded in an `events` trace so that theorems
can speak about what hooks were told.  Operations return
`State × Except MError α`: the state component is the store's state after
the call, also when the call raised (Python exceptions propagate while the
mutations already performed on the store object remain).
-/

namespace Memstate

/-- JSON-compatible payload values (`payload` is a `dict[str, Any]` with
JSON-serializable leaves after `model_dump(mode="json")`). -/
inductive Value where
  | null : Value
  | bool (b : Bool) : Value
  | int (n : Int) : Value
  | str (s : String) : Value
  | arr (xs : List Value) : Value
  | obj (fields : List (String × Value)) : Value

mutual

/-- Decidable equality for `Value` (Python `==` on JSON values; association
lists are compared structurally, which agrees with `dict` equality for the
insertion-ordered dicts the engine builds). -/
def Value.decEq : (a b : Value) → Decidable (a = b)
  | .null, .null => isTrue rfl
  | .bool a, .bool b =>
    if h : a = b then isTrue (by rw [h]) else isFalse (by simp [h])
  | .int a, .int b =>
    if h : a = b then isTrue (by rw [h]) else isFalse (by simp [h])
  | .str a, .str b =>
    if h : a = b then isTrue (by rw [h]) else isFalse (by simp [h])
  | .arr xs, .arr ys =>
    match Value.decEqList xs ys with
    | isTrue h => isTrue (by rw [h])
    | isFalse h => isFalse (by simp [h])
  | .obj fs, .obj gs =>
    match Value.decEqFields fs gs with
    | isTrue h => isTrue (by rw [h])
    | isFalse h => isFalse (by simp [h])
  | .null, .bool _ => isFalse nofun
  | .null, .int _ => isFalse nofun
  | .null, .str _ => isFalse nofun
  | .null, .arr _ => isFalse nofun
  | .null, .obj _ => isFalse nofun
  | .bool _, .null => isFalse nofun
  | .bool _, .int _ => isFalse nofun
  | .bool _, .str _ => isFalse nofun
  | .bool _, .arr _ => isFalse nofun
  | .bool _, .obj _ => isFalse nofun
  | .int _, .null => isFalse nofun
  | .int _, .bool _ => isFalse nofun
  | .int _, .str _ => isFalse nofun
  | .int _, .arr _ => isFalse nofun
  | .int _, .obj _ => isFalse nofun
  | .str _, .null => isFalse nofun
  | .str _, .bool _ => isFalse nofun
  | .str _, .int _ => isFalse nofun
  | .str _, .arr _ => isFalse nofun
  | .str _, .obj _ => isFalse nofun
  | .arr _, .null => isFalse nofun
  | .arr _, .bool _ => isFalse nofun
  | .arr _, .int _ => isFalse nofun
  | .arr _, .str _ => isFalse nofun
  | .arr _, .obj _ => isFalse nofun
  | .obj _, .null => isFalse nofun
  | .obj _, .bool _ => isFalse nofun
  | .obj _, .int _ => isFalse nofun
  | .obj _, .str _ => isFalse nofun
  | .obj _, .arr _ => isFalse nofun
termination_by structural a => a

/-- Decidable equality for lists of values. -/
def Value.decEqList : (xs ys : List Value) → Decidable (xs = ys)
  | [], [] => isTrue rfl
  | [], _ :: _ => isFalse nofun
  | _ :: _, [] => isFalse nofun
  | x :: xs, y :: ys =>
    match Value.decEq x y with
    | isFalse h => isFalse (by simp [h])
    | isTrue h =>
      match Value.decEqList xs ys with
      | isTrue h2 => isTrue (by rw [h, h2])
      | isFalse h2 => isFalse (by simp [h2])
termination_by structural xs => xs

/-- Decidable equality for object field lists. -/
def Value.decEqFields :
    (fs gs : List (String × Value)) → Decidable (fs = gs)
  | [], [] => isTrue rfl
  | [], _ :: _ => isFalse nofun
  | _ :: _, [] => isFalse nofun
  | (k, v) :: fs, (l, w) :: gs =>
    if h : k = l then
      match Value.decEq v w with
      | isFalse hv => isFalse (by simp [hv])
      | isTrue hv =>
        match Value.decEqFields fs gs with
        | isTrue hf => isTrue (by rw [h, hv, hf])
        | isFalse hf => isFalse (by simp [hf])
    else isFalse (by simp [h])
termination_by structural fs => fs

end

instance : DecidableEq Value := Value.decEq

/-- Decidable equality for operation results. -/
instance {ε α : Type} [DecidableEq ε] [DecidableEq α] :
    DecidableEq (Except ε α) := fun a b =>
  match a, b with
  | .ok x, .ok y =>
    if h : x = y then isTrue (by rw [h]) else isFalse (by simp [h])
  | .error x, .error y =>
    if h : x = y then isTrue (by rw [h]) else isFalse (by simp [h])
  | .ok _, .error _ => isFalse nofun
  | .error _, .ok _ => isFalse nofun

/-- Python `dict` lookup (`d.get(k)` returning `None` as `Option.none`). -/
def alGet {α : Type} : List (String × α) → String → Option α
  | [], _ => none
  | (k, v) :: rest, key => if k = key then some v else alGet rest key

/-- Python `d[k] = v`: replace in place if the key exists, else append. -/
def alSet {α : Type} : List (String × α) → String → α → List (String × α)
  | [], key, v => [(key, v)]
  | (k, w) :: rest, key, v =>
    if k = key then (k, v) :: rest else (k, w) :: alSet rest key v

/-- Python `d.pop(k, None)` / `del d[k]`: remove the key if present. -/
def alRemove {α : Type} : List (String × α) → String → List (String × α)
  | [], _ => []
  | (k, w) :: rest, key =>
    if k = key then rest else (k, w) :: alRemove rest key

/-- Python `d.get(k)` on a JSON object, where an absent key yields `None`
(conflated with a stored `None`, exactly as in the source). -/
def pyGet (d : List (String × Value)) (k : String) : Value :=
  (alGet d k).getD .null

/-- Python `current.update(patch)`: shallow in-place merge of two dicts. -/
def dictUpdate (d patch : List (String × Value)) : List (String × Value) :=
  patch.foldl (fun acc kv => alSet acc kv.1 kv.2) d

/-- `memstate.constants.Operation`. -/
inductive Operation where
  | COMMIT | COMMIT_EPHEMERAL | UPDATE | DELETE | PROMOTE | DISCARD_SESSION
deriving DecidableEq

/-- `memstate.schemas.Fact` (`ts` modelled as an abstract clock tick). -/
structure Fact where
  id : String
  type : String
  payload : List (String × Value)
  source : Option String := none
  session_id : Option String := none
  ts : Nat := 0
deriving DecidableEq

/-- `memstate.schemas.TxEntry` (`uuid` is modelled as the value of the
store's sequence counter at creation time, a faithful stand-in for
`uuid4()`: each journal entry gets a fresh identifier). -/
structure TxEntry where
  uuid : Nat
  session_id : Option String
  seq : Nat
  ts : Nat
  op : Operation
  fact_id : Option String
  fact_before : Option Fact := none
  fact_after : Option Fact := none
  actor : Option String := none
  reason : Option String := none
deriving DecidableEq

/-- `memstate.exceptions`: `MemoryStoreError` is the base class,
`ValidationFailed`, `ConflictError` and `HookError` are its subclasses. -/
inductive MError where
  | memoryStoreError (msg : String)
  | validationFailed (msg : String)
  | conflictError (msg : String)
  | hookError
deriving DecidableEq

/-- The Python exception classes of `memstate.exceptions` (plus builtin
`Exception`), used to reason about `except`-clause catchability. -/
inductive ExcClass where
  | exception | memoryStoreError | validationFailed | conflictError | hookError
deriving DecidableEq

/-- Direct superclass, per `memstate/exceptions.py`. -/
def ExcClass.parent : ExcClass → Option ExcClass
  | .exception => none
  | .memoryStoreError => some .exception
  | .validationFailed => some .memoryStoreError
  | .conflictError => some .memoryStoreError
  | .hookError => some .memoryStoreError

/-- `subclassOf e c`: an `except c` clause catches an exception of class `e`
(reflexive-transitive closure of `parent`). -/
def ExcClass.subclassOf : ExcClass → ExcClass → Bool
  | .exception, c => c = .exception
  | .memoryStoreError, c => c = .memoryStoreError || c = .exception
  | .validationFailed, c =>
    c = .validationFailed || c = .memoryStoreError || c = .exception
  | .conflictError, c =>
    c = .conflictError || c = .memoryStoreError || c = .exception
  | .hookError, c => c = .hookError || c = .memoryStoreError || c = .exception

/-- The Python class of each raised error value. -/
def MError.excClass : MError → ExcClass
  | .memoryStoreError _ => .memoryStoreError
  | .validationFailed _ => .validationFailed
  | .conflictError _ => .conflictError
  | .hookError => .hookError

/-! ## Storage backend (`memstate/backends/inmemory.py`, `InMemoryStorage`)

The fact store `_store` is a dict from id to fact document; facts are
stored in their document form, which round-trips with `Fact` one-to-one
here (field for field, as `model_dump(mode="json")` / `Fact(**d)` do). -/

/-- The backend's `_store` dict, id → fact document. -/
abbrev Store := List (String × Fact)

/-- A fact in document form, as `_get_value_by_path` sees it: the
top-level keys of `model_dump`. -/
def factToValue (f : Fact) : Value :=
  .obj [("id", .str f.id), ("type", .str f.type), ("payload", .obj f.payload),
        ("source", (f.source.map .str).getD .null),
        ("session_id", (f.session_id.map .str).getD .null),
        ("ts", .int (f.ts : Int))]

/-- `InMemoryStorage._get_value_by_path`, after `path.split(".")`: walk
dicts with `.get`, return `None` when a step is not a dict. -/
def getValueByPathAux : Value → List String → Value
  | v, [] => v
  | .obj fs, k :: ks => getValueByPathAux (pyGet fs k) ks
  | _, _ :: _ => .null

/-- Split a character list on a separator character, Python
`str.split(sep)` style: consecutive separators yield empty pieces and the
empty string yields one empty piece. -/
def splitOnCharAux (c : Char) : List Char → List (List Char)
  | [] => [[]]
  | x :: xs =>
    let r := splitOnCharAux c xs
    if x = c then [] :: r
    else
      match r with
      | g :: gs => (x :: g) :: gs
      | [] => [[x]]

/-- `path.split(".")` (computed over the character list so that it
evaluates by reduction). -/
def splitPath (path : String) : List String :=
  (splitOnCharAux '.' path.toList).map List.asString

/-- `InMemoryStorage._get_value_by_path` on a fact document. -/
def getValueByPath (f : Fact) (path : String) : Value :=
  getValueByPathAux (factToValue f) (splitPath path)

/-- `InMemoryStorage.load`. -/
def storeLoad (store : Store) (id : String) : Option Fact :=
  alGet store id

/-- `InMemoryStorage.save`: upsert keyed by the document's `id` field. -/
def storeSave (store : Store) (f : Fact) : Store :=
  alSet store f.id f

/-- `InMemoryStorage.delete`: silent no-op when absent. -/
def storeDelete (store : Store) (id : String) : Store :=
  alRemove store id

/-- One fact passes the `query` filters: `type_filter` (skipped when
falsy, i.e. absent or the empty string) and the conjunction of
path-equality filters. -/
def queryMatches (type_filter : Option String)
    (json_filters : List (String × Value)) (f : Fact) : Bool :=
  (match type_filter with
   | some t => if t = "" then true else f.type = t
   | none => true)
  && json_filters.all fun kv => getValueByPath f kv.1 = kv.2

/-- `InMemoryStorage.query`: facts in insertion order passing the filters
(an absent `json_filters` dict is the empty filter list here). -/
def storeQuery (store : Store) (type_filter : Option String)
    (json_filters : List (String × Value)) : List Fact :=
  (store.map Prod.snd).filter (queryMatches type_filter json_filters)

/-- `InMemoryStorage.get_tx_log`: newest first, only entries of the given
session, then `[offset : offset + limit]`. -/
def getTxLog (tx_log : List TxEntry) (session_id : String)
    (limit offset : Nat) : List TxEntry :=
  (((tx_log.reverse).filter fun tx =>
      tx.session_id = some session_id).drop offset).take limit

/-- `InMemoryStorage.delete_session`: ids of the session's facts, and the
store with them removed. -/
def storeDeleteSession (store : Store) (session_id : String) :
    List String × Store :=
  ((store.filter fun kv => kv.2.session_id = some session_id).map Prod.fst,
   store.filter fun kv => ¬ kv.2.session_id = some session_id)

/-- `InMemoryStorage.delete_txs`: drop entries whose uuid is listed (the
early return on an empty list coincides with filtering by the empty set). -/
def deleteTxs (tx_log : List TxEntry) (tx_uuids : List Nat) :
    List TxEntry :=
  tx_log.filter fun tx => ¬ tx_uuids.contains tx.uuid

/-! ## Memory store (`memstate/storage.py`) -/

/-- `memstate.storage.Constraint`. -/
structure Constraint where
  singleton_key : Option String := none
  immutable : Bool := false
deriving DecidableEq

/-- A registered validator: `SchemaRegistry.validate` for one type
(`model_validate` + `model_dump`, or a `ValidationError` message). -/
abbrev Validator := List (String × Value) → Except String (List (String × Value))

/-- A hook notification as the engine emits it:
`(op, fact_id, fact_or_null)`. -/
abbrev HookEvent := Operation × Option String × Option Fact

/-- The fixed configuration of one `MemoryStore` instance: its
`SchemaRegistry._schemas`, its `_constraints`, and the behaviour of its
`_hooks` chain, abstracted to whether `_notify_hooks` raises on a given
notification (any hook raising is wrapped as `HookError`). -/
structure Config where
  validators : List (String × Validator)
  constraints : List (String × Constraint)
  hookFails : Operation → Option String → Option Fact → Bool

/-- The mutable state of a `MemoryStore` with an `InMemoryStorage`
backend: the backend's `_store` and `_tx_log`, the store's `_seq`, plus
the cumulative trace of hook notifications the engine has emitted. -/
structure State where
  store : Store
  tx_log : List TxEntry
  seq : Nat
  events : List HookEvent
deriving DecidableEq

/-- `SchemaRegistry.validate`: pass-through when the type has no
registered model, else run the validator, wrapping failure as
`ValidationFailed`. -/
def registryValidate (cfg : Config) (typename : String)
    (payload : List (String × Value)) : Except MError (List (String × Value)) :=
  match alGet cfg.validators typename with
  | none => .ok payload
  | some v =>
    match v payload with
    | .ok q => .ok q
    | .error msg => .error (.validationFailed msg)

/-- `str()` of a payload value, for the `ConflictError` message
(scalars rendered as Python renders them; containers abbreviated). -/
def valueStr : Value → String
  | .null => "None"
  | .bool true => "True"
  | .bool false => "False"
  | .int n => toString n
  | .str s => s
  | .arr _ => "<list>"
  | .obj _ => "<dict>"

/-- `MemoryStore._log_tx`: build the `TxEntry` for an already incremented
`seq` (the `uuid4` default is modelled as a fresh name derived from the
sequence number). -/
def mkTx (op : Operation) (session_id : Option String)
    (fact_id : Option String) (before after : Option Fact)
    (actor reason : Option String) (seq : Nat) (now : Nat) : TxEntry :=
  { uuid := seq, session_id := session_id, seq := seq,
    ts := now, op := op, fact_id := fact_id, fact_before := before,
    fact_after := after, actor := actor, reason := reason }

/-- The `if op != Operation.UPDATE` block of `MemoryStore.commit`: look
the (possibly rewritten) fact id up in storage; a hit makes the commit an
UPDATE with the existing document as `previous_state`, a miss classifies
it as COMMIT or COMMIT_EPHEMERAL. -/
def commitResolveId (st : State) (fact : Fact) (ephemeral : Bool) :
    Operation × Option Fact × Fact :=
  match storeLoad st.store fact.id with
  | some existing => (.UPDATE, some existing, fact)
  | none =>
    ((if ephemeral then .COMMIT_EPHEMERAL else .COMMIT), none, fact)

/-- The `if session_id:` line of `MemoryStore.commit`: overwrite the
fact's session binding when a truthy (non-empty) session id argument was
supplied. -/
def bindSession (fact : Fact) (session_id : Option String) : Fact :=
  match session_id with
  | some s => if s = "" then fact else { fact with session_id := some s }
  | none => fact

/-- The pre-persistence phase of `MemoryStore.commit`: validate the
payload (mutating `fact.payload`), bind the session id when a truthy one
is supplied, then resolve the singleton constraint — an existing match
makes this an UPDATE onto the matched id unless the constraint is
immutable, in which case `ConflictError`; otherwise fall through to
resolution by id.  Returns the operation, the captured `previous_state`,
and the fact as mutated so far. -/
def commitPrep (cfg : Config) (st : State) (fact : Fact)
    (session_id : Option String) (ephemeral : Bool) :
    Except MError (Operation × Option Fact × Fact) :=
  match registryValidate cfg fact.type fact.payload with
  | .error e => .error e
  | .ok validated_payload =>
    let fact := bindSession { fact with payload := validated_payload }
      session_id
    match alGet cfg.constraints fact.type with
    | none => .ok (commitResolveId st fact ephemeral)
    | some c =>
      match c.singleton_key with
      | none => .ok (commitResolveId st fact ephemeral)
      | some sk =>
        if sk = "" then .ok (commitResolveId st fact ephemeral)
        else
          let key_val := pyGet validated_payload sk
          if key_val = .null then .ok (commitResolveId st fact ephemeral)
          else
            match storeQuery st.store (some fact.type)
                [("payload." ++ sk, key_val)] with
            | [] => .ok (commitResolveId st fact ephemeral)
            | m :: _ =>
              if c.immutable then
                .error (.conflictError ("Immutable constraint violation: "
                  ++ fact.type ++ ":" ++ valueStr key_val))
              else
                .ok (.UPDATE, some m, { fact with id := m.id })

/-- `MemoryStore.commit`.  On success returns the resolved id together
with the caller's fact object as mutated in place.  When `_notify_hooks`
raises, the `except HookError` handler re-saves `previous_state` for an
UPDATE (else deletes the freshly saved id) before re-raising; the journal
entry appended by `_log_tx` stays. -/
def MemoryStore.commit (cfg : Config) (st : State) (fact : Fact)
    (session_id : Option String) (ephemeral : Bool)
    (actor reason : Option String) (now : Nat) :
    State × Except MError (String × Fact) :=
  match commitPrep cfg st fact session_id ephemeral with
  | .error e => (st, .error e)
  | .ok (op, previous_state, f) =>
    let new_state := f
    let store1 := storeSave st.store new_state
    let seq1 := st.seq + 1
    let tx := mkTx op f.session_id (some f.id) previous_state
      (some new_state) actor reason seq1 now
    let tx_log1 := st.tx_log ++ [tx]
    if cfg.hookFails op (some f.id) (some f) then
      let store2 :=
        match op, previous_state with
        | .UPDATE, some p => storeSave store1 p
        | _, _ => storeDelete store1 f.id
      ({ store := store2, tx_log := tx_log1, seq := seq1,
         events := st.events }, .error .hookError)
    else
      ({ store := store1, tx_log := tx_log1, seq := seq1,
         events := st.events ++ [(op, some f.id, some f)] },
       .ok (f.id, f))

/-- The patch argument of `MemoryStore.update`: only its `"payload"` key
is read (`patch.get("payload", {})`). -/
structure Patch where
  payload : List (String × Value) := []

/-- `MemoryStore.update`: load (absent → `MemoryStoreError "Fact not
found"`), shallow-merge the patch's payload into the current payload,
re-validate the merged payload, refresh `ts`, save, journal, notify; on
`HookError` re-save the prior document (the journal entry stays). -/
def MemoryStore.update (cfg : Config) (st : State) (fact_id : String)
    (patch : Patch) (actor reason : Option String) (now : Nat) :
    State × Except MError String :=
  match storeLoad st.store fact_id with
  | none => (st, .error (.memoryStoreError "Fact not found"))
  | some existing =>
    let before := existing
    let merged := dictUpdate existing.payload patch.payload
    match registryValidate cfg existing.type merged with
    | .error e => (st, .error e)
    | .ok validated_payload =>
      let draft := { existing with payload := validated_payload, ts := now }
      let store1 := storeSave st.store draft
      let seq1 := st.seq + 1
      let tx := mkTx .UPDATE draft.session_id (some fact_id) (some before)
        (some draft) actor reason seq1 now
      let tx_log1 := st.tx_log ++ [tx]
      if cfg.hookFails .UPDATE (some fact_id) (some draft) then
        ({ store := storeSave store1 before, tx_log := tx_log1, seq := seq1,
           events := st.events }, .error .hookError)
      else
        ({ store := store1, tx_log := tx_log1, seq := seq1,
           events := st.events ++ [(.UPDATE, some fact_id, some draft)] },
         .ok fact_id)

/-- `MemoryStore.delete`: load (absent → `MemoryStoreError "Fact not
found"`), remove from storage, journal with `fact_before`, notify hooks
with the pre-deletion fact (a hook raising propagates with the deletion
and the journal entry in place — there is no handler here). -/
def MemoryStore.delete (cfg : Config) (st : State)
    (session_id : Option String) (fact_id : String)
    (actor reason : Option String) (now : Nat) :
    State × Except MError String :=
  match storeLoad st.store fact_id with
  | none => (st, .error (.memoryStoreError "Fact not found"))
  | some existing =>
    let store1 := storeDelete st.store fact_id
    let seq1 := st.seq + 1
    let tx := mkTx .DELETE session_id (some fact_id) (some existing) none
      actor reason seq1 now
    let tx_log1 := st.tx_log ++ [tx]
    if cfg.hookFails .DELETE (some fact_id) (some existing) then
      ({ store := store1, tx_log := tx_log1, seq := seq1,
         events := st.events }, .error .hookError)
    else
      ({ store := store1, tx_log := tx_log1, seq := seq1,
         events := st.events ++ [(.DELETE, some fact_id, some existing)] },
       .ok fact_id)

/-- `MemoryStore.get`: pure storage lookup. -/
def MemoryStore.get (st : State) (fact_id : String) : Option Fact :=
  storeLoad st.store fact_id

/-- `MemoryStore.query`: copy the filters, add a truthy `session_id` as a
top-level filter, delegate to the backend. -/
def MemoryStore.query (st : State) (typename : Option String)
    (filters : List (String × Value)) (session_id : Option String) :
    List Fact :=
  let final_filters :=
    match session_id with
    | some s => if s = "" then filters else alSet filters "session_id" (.str s)
    | none => filters
  storeQuery st.store typename final_filters

/-- `MemoryStore.discard_session` (sync variant): bulk-delete the
session's facts, journal one DISCARD_SESSION entry when anything was
deleted.  No hook is notified by this variant. -/
def MemoryStore.discard_session (st : State) (session_id : String)
    (now : Nat) : State × Except MError Nat :=
  let (deleted_ids, store1) := storeDeleteSession st.store session_id
  if deleted_ids.isEmpty then
    ({ st with store := store1 }, .ok deleted_ids.length)
  else
    let seq1 := st.seq + 1
    let tx := mkTx .DISCARD_SESSION (some session_id) none none none none
      (some ("Session " ++ session_id ++ " cleared ("
        ++ toString deleted_ids.length ++ " facts)")) seq1 now
    ({ store := store1, tx_log := st.tx_log ++ [tx], seq := seq1,
       events := st.events }, .ok deleted_ids.length)

/-- `AsyncMemoryStore.discard_session`: as the sync variant, but after
journaling it notifies hooks once with a synthetic marker fact
`Fact(id="session", type="session", payload={}, session_id=session_id)`
under op DISCARD_SESSION and fact id `""`; a hook raising surfaces
`HookError` without undoing the deletion. -/
def AsyncMemoryStore.discard_session (cfg : Config) (st : State)
    (session_id : String) (now : Nat) : State × Except MError Nat :=
  let (deleted_ids, store1) := storeDeleteSession st.store session_id
  if deleted_ids.isEmpty then
    ({ st with store := store1 }, .ok deleted_ids.length)
  else
    let seq1 := st.seq + 1
    let tx := mkTx .DISCARD_SESSION (some session_id) none none none none
      (some ("Session " ++ session_id ++ " cleared ("
        ++ toString deleted_ids.length ++ " facts)")) seq1 now
    let dummy : Fact :=
      { id := "session", type := "session", payload := [],
        source := none, session_id := some session_id, ts := now }
    if cfg.hookFails .DISCARD_SESSION (some "") (some dummy) then
      ({ store := store1, tx_log := st.tx_log ++ [tx], seq := seq1,
         events := st.events }, .error .hookError)
    else
      ({ store := store1, tx_log := st.tx_log ++ [tx], seq := seq1,
         events := st.events
           ++ [(.DISCARD_SESSION, some "", some dummy)] },
       .ok deleted_ids.length)

/-- One iteration of the `MemoryStore.rollback` loop, before hook
notification: the storage effect of inverting one journal entry, plus the
notification to emit (`none` when the entry triggers no action). -/
def rollbackStep (entry : TxEntry) (store : Store) :
    Store × Option HookEvent :=
  if entry.op = .COMMIT ∨ entry.op = .COMMIT_EPHEMERAL
      ∨ entry.op = .UPDATE ∨ entry.op = .PROMOTE then
    match entry.fact_before with
    | some b => (storeSave store b, some (.UPDATE, entry.fact_id, some b))
    | none =>
      match entry.fact_id with
      | some fid =>
        if fid = "" then (store, none)
        else (storeDelete store fid, some (.DELETE, some fid, none))
      | none => (store, none)
  else if entry.op = .DELETE then
    match entry.fact_before with
    | some b => (storeSave store b, some (.COMMIT, entry.fact_id, some b))
    | none => (store, none)
  else (store, none)

/-- The `for entry in logs` loop of `MemoryStore.rollback`: apply each
inverse then notify; a hook raising aborts the loop with the storage
effects applied so far (including the failing entry's) kept.  The boolean
reports whether a hook raised. -/
def rollbackLoop (cfg : Config) :
    List TxEntry → Store → List HookEvent → (Store × List HookEvent) × Bool
  | [], store, events => ((store, events), false)
  | entry :: rest, store, events =>
    let (store1, note) := rollbackStep entry store
    match note with
    | none => rollbackLoop cfg rest store1 events
    | some ev =>
      if cfg.hookFails ev.1 ev.2.1 ev.2.2 then ((store1, events), true)
      else rollbackLoop cfg rest store1 (events ++ [ev])

/-- `MemoryStore.rollback`: no-op for `steps ≤ 0`; otherwise fetch the
last `steps` entries of the session newest-first, invert them in order,
and finally drop the consumed entries by uuid — unless a hook raised,
in which case the journal is left untouched and `HookError` surfaces. -/
def MemoryStore.rollback (cfg : Config) (st : State) (session_id : String)
    (steps : Int) : State × Except MError Unit :=
  if steps ≤ 0 then (st, .ok ())
  else
    let logs := getTxLog st.tx_log session_id steps.toNat 0
    let ((store1, events1), failed) := rollbackLoop cfg logs st.store st.events
    if failed then
      ({ store := store1, tx_log := st.tx_log, seq := st.seq,
         events := events1 }, .error .hookError)
    else
      ({ store := store1,
         tx_log := deleteTxs st.tx_log (logs.map TxEntry.uuid),
         seq := st.seq, events := events1 }, .ok ())

/-! ## Well-formedness and catchability -/

/-- The backend discipline: `_store` keys are exactly the stored
documents' `id` fields (as `save` keys by `fact_data["id"]`), with no
duplicate keys (Python dict keys are unique). -/
def StoreWF (s : Store) : Prop :=
  (s.map Prod.fst).Nodup ∧ ∀ kv ∈ s, kv.2.id = kv.1

instance (s : Store) : Decidable (StoreWF s) := by
  unfold StoreWF; infer_instance

/-- All exception classes of `memstate.exceptions` plus builtin
`Exception` — the only classes whose `except` clause can catch an
engine error (a class unrelated to the raised class catches nothing). -/
def allExcClasses : List ExcClass :=
  [.exception, .memoryStoreError, .validationFailed, .conflictError,
   .hookError]

/-- `e` can be caught apart from `others`: some class's `except` clause
catches class `e` while catching none of `others`. -/
def catchableApart (e : ExcClass) (others : List ExcClass) : Bool :=
  allExcClasses.any fun c =>
    e.subclassOf c && others.all fun o => o.subclassOf c = false

/-! ## Concrete scenarios used by witnesses and counterexamples -/

/-- Hooks that never raise, no schemas, no constraints. -/
def cfgPlain : Config :=
  { validators := [], constraints := [], hookFails := fun _ _ _ => false }

/-- Mutable singleton on `payload.email` for type `user`; hooks fine. -/
def cfgSingleton : Config :=
  { validators := [],
    constraints := [("user", { singleton_key := some "email" })],
    hookFails := fun _ _ _ => false }

/-- Immutable singleton on `payload.key` for type `config`; hooks fine. -/
def cfgImmutable : Config :=
  { validators := [],
    constraints := [("config", { singleton_key := some "key",
                                 immutable := true })],
    hookFails := fun _ _ _ => false }

/-- A hook chain that always raises. -/
def cfgHookFail : Config :=
  { validators := [], constraints := [], hookFails := fun _ _ _ => true }

/-- A hook chain that raises exactly on UPDATE notifications carrying a
fact with `ts = 1` (used to make a rollback inverse-notification fail
while the original mutations succeed). -/
def cfgHookFailOldTs : Config :=
  { validators := [], constraints := [],
    hookFails := fun op _ d => op = .UPDATE && (d.map Fact.ts) = some 1 }

/-- The empty store state. -/
def st0 : State := { store := [], tx_log := [], seq := 0, events := [] }

/-- A `user` fact with a singleton-keyed payload. -/
def exFactA : Fact :=
  { id := "A", type := "user",
    payload := [("email", .str "a@x"), ("age", .int 20)], ts := 1 }

/-- A second `user` fact carrying the same `email` key value. -/
def exFactB : Fact :=
  { id := "B", type := "user",
    payload := [("email", .str "a@x"), ("age", .int 25)], ts := 2 }

/-- `exFactA` after a commit bound to session `"s"`. -/
def exFactA_s : Fact := { exFactA with session_id := some "s" }

/-- A fact whose payload has a nested dict, to exercise shallow merge. -/
def exFactM : Fact :=
  { id := "M", type := "note",
    payload := [("keep", .str "k"),
                ("sub", .obj [("a", .int 1), ("b", .int 2)]),
                ("x", .int 7)] }

/-- An ephemeral note bound to session `"s1"`. -/
def exFactE : Fact :=
  { id := "E", type := "note", payload := [("text", .str "t")],
    session_id := some "s1" }

/-- `config` fact with `key = "u"`. -/
def exFactC1 : Fact :=
  { id := "C", type := "config",
    payload := [("key", .str "u"), ("value", .str "v1")] }

/-- Second `config` fact with the same `key = "u"`. -/
def exFactC2 : Fact :=
  { id := "D", type := "config",
    payload := [("key", .str "u"), ("value", .str "v2")] }

/-- State holding `exFactA` committed in session `"s"`. -/
def stA : State :=
  (MemoryStore.commit cfgPlain st0 exFactA (some "s") false
    none none 1).1

/-- State holding the ephemeral `exFactE` in session `"s1"`. -/
def stE : State :=
  (MemoryStore.commit cfgPlain st0 exFactE (some "s1") true
    none none 1).1

/-- State holding the immutable-singleton fact `exFactC1`. -/
def stConfig : State :=
  (MemoryStore.commit cfgImmutable st0 exFactC1 none false
    none none 1).1

/-- State holding the nested-payload fact `exFactM`. -/
def stM : State :=
  (MemoryStore.commit cfgPlain st0 exFactM none false none none 1).1

/-- Under the `cfgHookFailOldTs` hook chain: `exFactA` committed in
session `"s"`, then updated (the update succeeds — its UPDATE
notification carries `ts = 5`), leaving two journal entries whose
rollback will notify UPDATE with the old `ts = 1` fact and so raise. -/
def stRB : State :=
  (MemoryStore.update cfgHookFailOldTs
    (MemoryStore.commit cfgHookFailOldTs st0 exFactA (some "s") false
      none none 1).1
    "A" { payload := [("age", .int 99)] } none none 5).1

/-! ## Association-list lemmas -/

theorem alGet_alSet_self {α : Type} (s : List (String × α)) (k : String)
    (v : α) : alGet (alSet s k v) k = some v := by
  induction s with
  | nil => simp [alSet, alGet]
  | cons kv rest ih =>
    obtain ⟨k1, v1⟩ := kv
    by_cases h : k1 = k <;> simp [alSet, alGet, h, ih]

theorem alGet_alSet_ne {α : Type} (s : List (String × α)) {k k2 : String}
    (v : α) (h : k ≠ k2) : alGet (alSet s k v) k2 = alGet s k2 := by
  induction s with
  | nil => simp [alSet, alGet, h]
  | cons kv rest ih =>
    obtain ⟨k1, v1⟩ := kv
    by_cases h1 : k1 = k
    · subst h1
      simp [alSet, alGet, h]
    · simp [alSet, alGet, h1, ih]

theorem alSet_eq_self {α : Type} {s : List (String × α)} {k : String}
    {v : α} (h : alGet s k = some v) : alSet s k v = s := by
  induction s with
  | nil => simp [alGet] at h
  | cons kv rest ih =>
    obtain ⟨k1, v1⟩ := kv
    by_cases h1 : k1 = k
    · subst h1; simp [alGet] at h; simp [alSet, h]
    · simp [alGet, h1] at h; simp [alSet, h1, ih h]

theorem alSet_alSet {α : Type} (s : List (String × α)) (k : String)
    (a b : α) : alSet (alSet s k a) k b = alSet s k b := by
  induction s with
  | nil => simp [alSet]
  | cons kv rest ih =>
    obtain ⟨k1, v1⟩ := kv
    by_cases h : k1 = k <;> simp [alSet, h, ih]

theorem alRemove_alSet_of_none {α : Type} {s : List (String × α)}
    {k : String} (h : alGet s k = none) (v : α) :
    alRemove (alSet s k v) k = s := by
  induction s with
  | nil => simp [alSet, alRemove]
  | cons kv rest ih =>
    obtain ⟨k1, v1⟩ := kv
    by_cases h1 : k1 = k
    · simp [alGet, h1] at h
    · simp [alGet, h1] at h; simp [alSet, alRemove, h1, ih h]

theorem alGet_eq_none_of_not_mem {α : Type} {s : List (String × α)}
    {k : String} (h : k ∉ s.map Prod.fst) : alGet s k = none := by
  induction s with
  | nil => simp [alGet]
  | cons kv rest ih =>
    obtain ⟨k1, v1⟩ := kv
    rw [List.map_cons, List.mem_cons] at h
    push_neg at h
    have hne : k1 ≠ k := fun hh => h.1 hh.symm
    simp [alGet, hne, ih h.2]

theorem alGet_of_mem_nodup {α : Type} {s : List (String × α)} {k : String}
    {v : α} (hnd : (s.map Prod.fst).Nodup) (hm : (k, v) ∈ s) :
    alGet s k = some v := by
  induction s with
  | nil => simp at hm
  | cons kv rest ih =>
    obtain ⟨k1, v1⟩ := kv
    rw [List.map_cons, List.nodup_cons] at hnd
    rcases List.mem_cons.mp hm with h | h
    · obtain ⟨h1, h2⟩ := Prod.mk.injEq .. ▸ h
      simp [alGet, h1.symm, h2]
    · have hk : k1 ≠ k := by
        rintro rfl
        exact hnd.1 (List.mem_map.mpr ⟨(k1, v), h, rfl⟩)
      simp [alGet, hk, ih hnd.2 h]

theorem alGet_dictUpdate_of_none {d p : List (String × Value)} {k : String}
    (h : alGet p k = none) : alGet (dictUpdate d p) k = alGet d k := by
  induction p generalizing d with
  | nil => simp [dictUpdate]
  | cons kv rest ih =>
    obtain ⟨k1, v1⟩ := kv
    by_cases h1 : k1 = k
    · simp [alGet, h1] at h
    · simp [alGet, h1] at h
      show alGet (dictUpdate (alSet d k1 v1) rest) k = _
      rw [ih h, alGet_alSet_ne _ _ h1]

/-- Shallow-merge law: with unique patch keys, a key of the merged dict
reads from the patch when the patch mentions it, else from the original. -/
theorem alGet_dictUpdate (d p : List (String × Value)) (k : String)
    (hnd : (p.map Prod.fst).Nodup) :
    alGet (dictUpdate d p) k =
      match alGet p k with
      | some v => some v
      | none => alGet d k := by
  induction p generalizing d with
  | nil => simp [dictUpdate, alGet]
  | cons kv rest ih =>
    obtain ⟨k1, v1⟩ := kv
    rw [List.map_cons, List.nodup_cons] at hnd
    show alGet (dictUpdate (alSet d k1 v1) rest) k = _
    by_cases h1 : k1 = k
    · subst h1
      have hr : alGet rest k1 = none := alGet_eq_none_of_not_mem hnd.1
      rw [alGet_dictUpdate_of_none hr, alGet_alSet_self]
      simp [alGet]
    · rw [ih (alSet d k1 v1) hnd.2]
      rcases hget : alGet rest k with _ | w
      · simp [alGet, h1, hget, alGet_alSet_ne _ _ h1]
      · simp [alGet, h1, hget]

theorem storeQuery_mem {store : Store} {tf : Option String}
    {jf : List (String × Value)} {f : Fact}
    (h : f ∈ storeQuery store tf jf) : ∃ k, (k, f) ∈ store := by
  unfold storeQuery at h
  have hm := List.mem_of_mem_filter h
  rcases List.mem_map.mp hm with ⟨⟨k, g⟩, hkg, rfl⟩
  exact ⟨k, hkg⟩

theorem alGet_some_mem {α : Type} {s : List (String × α)} {k : String}
    {v : α} (h : alGet s k = some v) : (k, v) ∈ s := by
  induction s with
  | nil => simp [alGet] at h
  | cons kv rest ih =>
    obtain ⟨k1, v1⟩ := kv
    by_cases h1 : k1 = k
    · subst h1; simp [alGet] at h; simp [h]
    · simp [alGet, h1] at h; exact List.mem_cons_of_mem _ (ih h)

/-! ## Inversion lemmas for the engine operations -/

/-- In a well-formed store, `commit`'s id-resolution step either
classifies as UPDATE with the stored document captured (stored at the
key the final fact will be saved under), or classifies as a fresh
COMMIT / COMMIT_EPHEMERAL of an id not in storage. -/
theorem commitResolveId_inv {st : State} {fact : Fact} {eph : Bool}
    {op : Operation} {ps : Option Fact} {f : Fact} (hwf : StoreWF st.store)
    (h : commitResolveId st fact eph = (op, ps, f)) :
    (op = .UPDATE ∧ ∃ p, ps = some p ∧ p.id = f.id ∧
      alGet st.store p.id = some p) ∨
    (op ≠ .UPDATE ∧ ps = none ∧ alGet st.store f.id = none) := by
  unfold commitResolveId at h
  rcases hload : storeLoad st.store fact.id with _ | existing
  <;> rw [hload] at h
  · cases h
    right
    refine ⟨?_, rfl, hload⟩
    cases eph <;> simp
  · cases h
    left
    have hmem : (fact.id, existing) ∈ st.store := alGet_some_mem hload
    have hid : existing.id = fact.id := hwf.2 _ hmem
    exact ⟨rfl, existing, rfl, hid, by rw [hid]; exact hload⟩

/-- In a well-formed store, a successful `commitPrep` either classifies
as UPDATE and captured exactly the stored document at the save key, or
classifies as non-UPDATE with a fresh id and no captured state. -/
theorem commitPrep_inv {cfg : Config} {st : State} {fact : Fact}
    {sid : Option String} {eph : Bool} {op : Operation} {ps : Option Fact}
    {f : Fact} (hwf : StoreWF st.store)
    (h : commitPrep cfg st fact sid eph = .ok (op, ps, f)) :
    (op = .UPDATE ∧ ∃ p, ps = some p ∧ p.id = f.id ∧
      alGet st.store p.id = some p) ∨
    (op ≠ .UPDATE ∧ ps = none ∧ alGet st.store f.id = none) := by
  unfold commitPrep at h
  split at h
  · cases h
  · dsimp only at h
    split at h
    · exact commitResolveId_inv hwf (Except.ok.inj h)
    · split at h
      · exact commitResolveId_inv hwf (Except.ok.inj h)
      · split at h
        · exact commitResolveId_inv hwf (Except.ok.inj h)
        · split at h
          · exact commitResolveId_inv hwf (Except.ok.inj h)
          · split at h
            · exact commitResolveId_inv hwf (Except.ok.inj h)
            · rename_i m rest hq
              split at h
              · cases h
              · have h2 := Except.ok.inj h
                obtain ⟨rfl, rfl, rfl⟩ := Prod.mk.injEq .. ▸ h2
                left
                have hmem : m ∈ storeQuery st.store _ _ :=
                  hq ▸ List.mem_cons_self m rest
                obtain ⟨k, hk⟩ := storeQuery_mem hmem
                have hid : m.id = k := hwf.2 _ hk
                refine ⟨rfl, m, rfl, rfl, ?_⟩
                rw [hid]
                exact alGet_of_mem_nodup hwf.1 hk

/-- When `commitResolveId` captures no prior state, the operation it
classifies is COMMIT_EPHEMERAL for an ephemeral commit and COMMIT
otherwise (the `if op != Operation.UPDATE` block's miss branch). -/
theorem commitResolveId_none_op {st : State} {fact : Fact} {eph : Bool}
    {op : Operation} {f : Fact}
    (h : commitResolveId st fact eph = (op, none, f)) :
    op = if eph then Operation.COMMIT_EPHEMERAL else Operation.COMMIT := by
  unfold commitResolveId at h
  rcases hload : storeLoad st.store fact.id with _ | existing
  <;> rw [hload] at h
  · exact (congrArg Prod.fst h).symm
  · exact absurd (congrArg (fun p => p.2.1) h) (by simp)

/-- A successful `commitPrep` that captured no prior state classified the
operation as COMMIT_EPHEMERAL for an ephemeral commit and COMMIT
otherwise — a first commit of a fact is journalled as COMMIT. -/
theorem commitPrep_none_op {cfg : Config} {st : State} {fact : Fact}
    {sid : Option String} {eph : Bool} {op : Operation} {f : Fact}
    (h : commitPrep cfg st fact sid eph = .ok (op, none, f)) :
    op = if eph then Operation.COMMIT_EPHEMERAL else Operation.COMMIT := by
  unfold commitPrep at h
  split at h
  · cases h
  · dsimp only at h
    repeat' split at h
    all_goals first
      | cases h
      | exact commitResolveId_none_op (Except.ok.inj h)

/-- `registryValidate` only fails with `ValidationFailed`. -/
theorem registryValidate_error {cfg : Config} {t : String}
    {p : List (String × Value)} {e : MError}
    (h : registryValidate cfg t p = .error e) :
    ∃ msg, e = .validationFailed msg := by
  unfold registryValidate at h
  split at h
  · cases h
  · split at h
    · cases h
    · injection h with h2
      exact ⟨_, h2.symm⟩

/-- `commitPrep` never fails with `HookError` (its failures are
`ValidationFailed` and `ConflictError`). -/
theorem commitPrep_error_ne_hookError {cfg : Config} {st : State}
    {fact : Fact} {sid : Option String} {eph : Bool} {e : MError}
    (h : commitPrep cfg st fact sid eph = .error e) : e ≠ .hookError := by
  unfold commitPrep at h
  split at h
  · injection h with h2
    subst h2
    obtain ⟨msg, rfl⟩ := registryValidate_error (by assumption)
    simp
  · dsimp only at h
    repeat' split at h
    all_goals first
      | (injection h with h2
         subst h2
         simp)
      | cases h

/-- If the rollback loop aborts because a hook raised, the store it
returns is the initial store with the inverses of a nonempty prefix of
the entries applied — the prefix ending at the failing entry. -/
theorem rollbackLoop_error (cfg : Config) :
    ∀ (entries : List TxEntry) (store : Store) (evs : List HookEvent),
    (rollbackLoop cfg entries store evs).2 = true →
    ∃ i, i < entries.length ∧
      (rollbackLoop cfg entries store evs).1.1 =
        (entries.take (i + 1)).foldl (fun s e => (rollbackStep e s).1)
          store := by
  intro entries
  induction entries with
  | nil => intro store evs h; simp [rollbackLoop] at h
  | cons entry rest ih =>
    intro store evs h
    rcases hstep : rollbackStep entry store with ⟨store1, note⟩
    rw [rollbackLoop, hstep] at h ⊢
    rcases note with _ | ev
    · dsimp only at h ⊢
      obtain ⟨i, hi, hfold⟩ := ih store1 evs h
      refine ⟨i + 1, by simpa using hi, ?_⟩
      rw [hfold]
      simp [hstep]
    · dsimp only at h ⊢
      by_cases hfail : cfg.hookFails ev.1 ev.2.1 ev.2.2
      · rw [if_pos hfail]
        refine ⟨0, by simp, ?_⟩
        simp [hstep]
      · rw [if_neg hfail] at h ⊢
        obtain ⟨i, hi, hfold⟩ := ih store1 (evs ++ [ev]) h
        refine ⟨i + 1, by simpa using hi, ?_⟩
        rw [hfold]
        simp [hstep]

theorem bindSession_type (f : Fact) (sid : Option String) :
    (bindSession f sid).type = f.type := by
  unfold bindSession
  rcases sid with _ | s
  · rfl
  · by_cases hs : s = "" <;> simp [hs]

theorem bindSession_payload (f : Fact) (sid : Option String) :
    (bindSession f sid).payload = f.payload := by
  unfold bindSession
  rcases sid with _ | s
  · rfl
  · by_cases hs : s = "" <;> simp [hs]

theorem bindSession_id (f : Fact) (sid : Option String) :
    (bindSession f sid).id = f.id := by
  unfold bindSession
  rcases sid with _ | s
  · rfl
  · by_cases hs : s = "" <;> simp [hs]

theorem bindSession_ts (f : Fact) (sid : Option String) :
    (bindSession f sid).ts = f.ts := by
  unfold bindSession
  rcases sid with _ | s
  · rfl
  · by_cases hs : s = "" <;> simp [hs]

theorem bindSession_source (f : Fact) (sid : Option String) :
    (bindSession f sid).source = f.source := by
  unfold bindSession
  rcases sid with _ | s
  · rfl
  · by_cases hs : s = "" <;> simp [hs]

theorem bindSession_some {f : Fact} {s : String} (hs : s ≠ "") :
    bindSession f (some s) = { f with session_id := some s } := by
  simp [bindSession, hs]

/-- A fact passes the query filters when its type equals the (possibly
empty) type filter and every path filter evaluates to its value. -/
theorem queryMatches_eval {t : String} {jf : List (String × Value)}
    {f : Fact} (ht : f.type = t)
    (hf : ∀ kv ∈ jf, getValueByPath f kv.1 = kv.2) :
    queryMatches (some t) jf f = true := by
  unfold queryMatches
  have hall : (jf.all fun kv => getValueByPath f kv.1 = kv.2) = true := by
    rw [List.all_eq_true]
    intro kv hkv
    simp [hf kv hkv]
  by_cases h0 : t = "" <;> simp [h0, ht, hall]

/-- Path lookup of `payload.<k>` (for a key without dots) on a fact
document reads the payload key. -/
theorem getValueByPath_payload {f : Fact} {k : String}
    (hk : splitPath ("payload." ++ k) = ["payload", k]) :
    getValueByPath f ("payload." ++ k) = pyGet f.payload k := by
  unfold getValueByPath
  rw [hk]
  show getValueByPathAux (factToValue f) _ = _
  simp only [factToValue, getValueByPathAux, pyGet, alGet]

/-- `commitPrep` when no constraint is registered for the fact's type. -/
theorem commitPrep_no_constraint {cfg : Config} {st : State} {fact : Fact}
    {sid : Option String} {eph : Bool} {q : List (String × Value)}
    (hval : registryValidate cfg fact.type fact.payload = .ok q)
    (hc : alGet cfg.constraints fact.type = none) :
    commitPrep cfg st fact sid eph =
      .ok (commitResolveId st (bindSession { fact with payload := q } sid)
        eph) := by
  unfold commitPrep
  rw [hval]
  dsimp only
  rw [bindSession_type, hc]

/-- `commitPrep` when the singleton constraint fires and finds a match:
a mutable constraint classifies as UPDATE onto the matched id, capturing
the match. -/
theorem commitPrep_singleton_match {cfg : Config} {st : State}
    {fact : Fact} (sid : Option String) (eph : Bool) {c : Constraint}
    {k : String} {q : List (String × Value)} {m : Fact} {ms : List Fact}
    (hval : registryValidate cfg fact.type fact.payload = .ok q)
    (hc : alGet cfg.constraints fact.type = some c)
    (hsk : c.singleton_key = some k) (hk : k ≠ "")
    (hkv : pyGet q k ≠ .null)
    (hq : storeQuery st.store (some fact.type)
      [("payload." ++ k, pyGet q k)] = m :: ms)
    (him : c.immutable = false) :
    commitPrep cfg st fact sid eph =
      .ok (.UPDATE, some m,
        { bindSession { fact with payload := q } sid with id := m.id }) := by
  unfold commitPrep
  rw [hval]
  dsimp only
  rw [bindSession_type]
  rw [hc]
  dsimp only
  rw [hsk]
  dsimp only
  rw [if_neg hk, if_neg hkv]
  rw [hq]
  dsimp only
  rw [him]
  simp

/-- `commitPrep` when the singleton constraint fires but no live fact
matches: fall through to resolution by id. -/
theorem commitPrep_singleton_nomatch {cfg : Config} {st : State}
    {fact : Fact} {sid : Option String} {eph : Bool} {c : Constraint}
    {k : String} {q : List (String × Value)}
    (hval : registryValidate cfg fact.type fact.payload = .ok q)
    (hc : alGet cfg.constraints fact.type = some c)
    (hsk : c.singleton_key = some k) (hk : k ≠ "")
    (hkv : pyGet q k ≠ .null)
    (hq : storeQuery st.store (some fact.type)
      [("payload." ++ k, pyGet q k)] = []) :
    commitPrep cfg st fact sid eph =
      .ok (commitResolveId st (bindSession { fact with payload := q } sid)
        eph) := by
  unfold commitPrep
  rw [hval]
  dsimp only
  rw [bindSession_type]
  rw [hc]
  dsimp only
  rw [hsk]
  dsimp only
  rw [if_neg hk, if_neg hkv]
  rw [hq]

/-- The id-resolution step never rewrites the fact. -/
theorem commitResolveId_fact (st : State) (fact : Fact) (eph : Bool) :
    (commitResolveId st fact eph).2.2 = fact := by
  unfold commitResolveId
  rcases h : storeLoad st.store fact.id with _ | e <;> simp

/-- `MemoryStore.commit` after a successful prep with a quiet hook
chain: save, journal, notify, return the resolved id and the mutated
fact. -/
theorem commit_of_prep {cfg : Config} {st : State} {fact : Fact}
    {sid : Option String} {eph : Bool} (a r : Option String) (now : Nat)
    {op : Operation} {ps : Option Fact} {f : Fact}
    (hp : commitPrep cfg st fact sid eph = .ok (op, ps, f))
    (hh : cfg.hookFails op (some f.id) (some f) = false) :
    MemoryStore.commit cfg st fact sid eph a r now =
      ({ store := storeSave st.store f,
         tx_log := st.tx_log ++
           [mkTx op f.session_id (some f.id) ps (some f) a r
             (st.seq + 1) now],
         seq := st.seq + 1,
         events := st.events ++ [(op, some f.id, some f)] },
       .ok (f.id, f)) := by
  unfold MemoryStore.commit
  rw [hp]
  simp [hh]

/-- `MemoryStore.update` on a present fact, passing validation, with a
quiet hook chain: shallow-merge, revalidate, refresh `ts`, save,
journal, notify. -/
theorem update_of_load {cfg : Config} {st : State} {fid : String}
    {patch : Patch} {a r : Option String} {now : Nat} {existing : Fact}
    {q : List (String × Value)}
    (hload : storeLoad st.store fid = some existing)
    (hval : registryValidate cfg existing.type
      (dictUpdate existing.payload patch.payload) = .ok q)
    (hh : cfg.hookFails .UPDATE (some fid)
      (some { existing with payload := q, ts := now }) = false) :
    MemoryStore.update cfg st fid patch a r now =
      ({ store := storeSave st.store { existing with payload := q, ts := now },
         tx_log := st.tx_log ++
           [mkTx .UPDATE existing.session_id (some fid) (some existing)
             (some { existing with payload := q, ts := now }) a r
             (st.seq + 1) now],
         seq := st.seq + 1,
         events := st.events ++
           [(.UPDATE, some fid,
             some { existing with payload := q, ts := now })] },
       .ok fid) := by
  unfold MemoryStore.update
  rw [hload]
  dsimp only
  rw [hval]
  simp [hh]

/-- `MemoryStore.delete` on a present fact with a quiet hook chain. -/
theorem delete_of_load {cfg : Config} {st : State} (sid : Option String)
    {fid : String} (a r : Option String) (now : Nat) {existing : Fact}
    (hload : storeLoad st.store fid = some existing)
    (hh : cfg.hookFails .DELETE (some fid) (some existing) = false) :
    MemoryStore.delete cfg st sid fid a r now =
      ({ store := storeDelete st.store fid,
         tx_log := st.tx_log ++
           [mkTx .DELETE sid (some fid) (some existing) none a r
             (st.seq + 1) now],
         seq := st.seq + 1,
         events := st.events ++ [(.DELETE, some fid, some existing)] },
       .ok fid) := by
  unfold MemoryStore.delete
  rw [hload]
  simp [hh]

/-- A successful `commitPrep` returns the caller's fact with its payload
replaced by the validated payload and its session possibly rebound — and
possibly its id overridden by a singleton match. -/
theorem commitPrep_ok_fact {cfg : Config} {st : State} {fact : Fact}
    {sid : Option String} {eph : Bool} {op : Operation} {ps : Option Fact}
    {f : Fact} (h : commitPrep cfg st fact sid eph = .ok (op, ps, f)) :
    ∃ q, registryValidate cfg fact.type fact.payload = .ok q ∧
      (f = bindSession { fact with payload := q } sid ∨
       ∃ mid, f = { bindSession { fact with payload := q } sid
                      with id := mid }) := by
  unfold commitPrep at h
  split at h
  · cases h
  · rename_i q hq
    dsimp only at h
    have hres : commitResolveId st
        (bindSession { fact with payload := q } sid) eph = (op, ps, f) →
        f = bindSession { fact with payload := q } sid := by
      intro hh
      have h3 := congrArg (fun x => x.2.2) hh
      simpa [commitResolveId_fact] using h3.symm
    split at h
    · exact ⟨q, hq, .inl (hres (Except.ok.inj h))⟩
    · split at h
      · exact ⟨q, hq, .inl (hres (Except.ok.inj h))⟩
      · split at h
        · exact ⟨q, hq, .inl (hres (Except.ok.inj h))⟩
        · split at h
          · exact ⟨q, hq, .inl (hres (Except.ok.inj h))⟩
          · split at h
            · exact ⟨q, hq, .inl (hres (Except.ok.inj h))⟩
            · split at h
              · cases h
              · have h2 := Except.ok.inj h
                obtain ⟨rfl, rfl, rfl⟩ := Prod.mk.injEq .. ▸ h2
                exact ⟨q, hq, .inr ⟨_, rfl⟩⟩

/-- `MemoryStore.rollback` with positive steps whose loop completes
without a hook failure: apply the inverses and drop the consumed
entries. -/
theorem rollback_of_loop {cfg : Config} {st : State} {sid : String}
    {steps : Int} (hpos : ¬ steps ≤ 0) {logs : List TxEntry}
    {store1 : Store} {evs1 : List HookEvent}
    (hlogs : getTxLog st.tx_log sid steps.toNat 0 = logs)
    (hloop : rollbackLoop cfg logs st.store st.events =
      ((store1, evs1), false)) :
    MemoryStore.rollback cfg st sid steps =
      ({ store := store1,
         tx_log := deleteTxs st.tx_log (logs.map TxEntry.uuid),
         seq := st.seq, events := evs1 }, .ok ()) := by
  unfold MemoryStore.rollback
  rw [if_neg hpos]
  dsimp only
  rw [hlogs, hloop]
  rfl

/-! ## Claims -/

/-- C5: for a type registered with an immutable singleton constraint, a
commit whose singleton-key value matches an existing live fact fails with
`ConflictError` and causes no state change at all — the store (facts and
journal alike) is returned exactly as it was, so the existing fact's
payload is unchanged, nothing is written, and no journal entry is
appended. -/
theorem C5_immutable_conflict (cfg : Config) (st : State) (fact : Fact)
    (sid : Option String) (eph : Bool) (a r : Option String) (now : Nat)
    (c : Constraint) (k : String) (q : List (String × Value)) (m : Fact)
    (ms : List Fact)
    (hval : registryValidate cfg fact.type fact.payload = .ok q)
    (hc : alGet cfg.constraints fact.type = some c)
    (hsk : c.singleton_key = some k) (hk : k ≠ "")
    (hkv : pyGet q k ≠ .null)
    (hq : storeQuery st.store (some fact.type)
      [("payload." ++ k, pyGet q k)] = m :: ms)
    (him : c.immutable = true) :
    MemoryStore.commit cfg st fact sid eph a r now =
      (st, .error (.conflictError ("Immutable constraint violation: "
        ++ fact.type ++ ":" ++ valueStr (pyGet q k)))) := by
  have hp : commitPrep cfg st fact sid eph =
      .error (.conflictError ("Immutable constraint violation: "
        ++ fact.type ++ ":" ++ valueStr (pyGet q k))) := by
    unfold commitPrep
    rw [hval]
    dsimp only
    rw [bindSession_type]
    rw [hc]
    dsimp only
    rw [hsk]
    dsimp only
    rw [if_neg hk, if_neg hkv]
    rw [hq]
    dsimp only
    rw [him]
    simp [bindSession_type]
  unfold MemoryStore.commit
  rw [hp]

/-- C5 witness: committing a second `config` fact with the occupied key
`"u"` into the store holding `exFactC1` raises the conflict and leaves
the state untouched. -/
theorem C5_immutable_conflict_witness :
    MemoryStore.commit cfgImmutable stConfig exFactC2 none false
      none none 2 =
      (stConfig, .error (.conflictError
        ("Immutable constraint violation: " ++ exFactC2.type ++ ":"
          ++ valueStr (pyGet exFactC2.payload "key")))) :=
  C5_immutable_conflict cfgImmutable stConfig exFactC2 none false
    none none 2 { singleton_key := some "key", immutable := true } "key"
    exFactC2.payload exFactC1 [] (by decide) (by decide) (by decide)
    (by decide) (by decide) (by decide) (by decide)

/-- C6: `delete` of a fact id not in storage — including an
already-deleted id — and `update` of such an id raise the error carrying
the message `"Fact not found"` with storage (and the whole state)
unchanged, rather than silently succeeding. Amended: the error is the
base `MemoryStoreError` class, not a dedicated `NotFound` subclass — the
codebase defines no `NotFound` (nor `StorageError`), so the caller cannot
catch this failure by class without also catching `ValidationFailed`,
`ConflictError` and `HookError`. -/
theorem C6_not_found (cfg : Config) (st : State) (sid : Option String)
    (fid : String) (patch : Patch) (a r : Option String) (now : Nat)
    (h : storeLoad st.store fid = none) :
    MemoryStore.delete cfg st sid fid a r now =
      (st, .error (.memoryStoreError "Fact not found")) ∧
    MemoryStore.update cfg st fid patch a r now =
      (st, .error (.memoryStoreError "Fact not found")) := by
  unfold MemoryStore.delete MemoryStore.update
  rw [h]
  exact ⟨rfl, rfl⟩

/-- C6 witness: deleting and updating a missing id on the empty store. -/
theorem C6_not_found_witness :
    MemoryStore.delete cfgPlain st0 none "missing" none none 1 =
      (st0, .error (.memoryStoreError "Fact not found")) ∧
    MemoryStore.update cfgPlain st0 "missing" { payload := [] }
      none none 1 =
      (st0, .error (.memoryStoreError "Fact not found")) :=
  C6_not_found cfgPlain st0 none "missing" { payload := [] } none none 1
    (by decide)

/-- C6 counterexample: the claim says the error is a `NotFound` class the
caller can distinguish from `ValidationFailed`, `ConflictError`,
`HookError` (and `StorageError`).  In fact the raised error is the base
`MemoryStoreError` class, and no exception class catches it without also
catching the other error classes of the taxonomy — it is not
class-distinguishable, and no `NotFound` class exists. -/
theorem C6_counterexample :
    (MemoryStore.delete cfgPlain st0 none "missing" none none 1).2 =
      .error (.memoryStoreError "Fact not found") ∧
    (MError.memoryStoreError "Fact not found").excClass =
      .memoryStoreError ∧
    catchableApart .memoryStoreError
      [.validationFailed, .conflictError, .hookError] = false := by
  decide

/-- C2: when a hook raises after the storage write, in `commit` and in
`update` alike, the engine restores primary storage to the exact
pre-operation state before surfacing `HookError`: the captured prior
snapshot is re-saved when the fact existed before the operation, and the
fact is deleted when it did not — so the whole fact store (hence
`get(fact_id)`) is exactly as before the call.  Each operation's
restoration follows from that operation's own failure alone: any commit
that surfaces `HookError` restores the store, and independently any
update that surfaces `HookError` does. -/
theorem C2_hook_failure_restores_storage (cfg : Config) (st : State)
    (fact : Fact) (sid : Option String) (eph : Bool) (a r : Option String)
    (now : Nat) (fid : String) (patch : Patch) (a2 r2 : Option String)
    (now2 : Nat) (hwf : StoreWF st.store) :
    ((MemoryStore.commit cfg st fact sid eph a r now).2 =
        .error .hookError →
      (MemoryStore.commit cfg st fact sid eph a r now).1.store =
        st.store) ∧
    ((MemoryStore.update cfg st fid patch a2 r2 now2).2 =
        .error .hookError →
      (MemoryStore.update cfg st fid patch a2 r2 now2).1.store =
        st.store) := by
  constructor
  · intro hcerr
    unfold MemoryStore.commit at hcerr ⊢
    rcases hp : commitPrep cfg st fact sid eph with e | ⟨op, ps, f⟩
    · rfl
    · rw [hp] at hcerr
      dsimp only at hcerr ⊢
      by_cases hh : cfg.hookFails op (some f.id) (some f) = true
      · simp only [hh, if_true]
        rcases commitPrep_inv hwf hp with
          ⟨hop, p, hps, hpid, hpget⟩ | ⟨hop, hps, hget⟩
        · subst hop
          subst hps
          show storeSave (storeSave st.store f) p = st.store
          unfold storeSave
          rw [hpid, alSet_alSet]
          rw [← hpid]
          exact alSet_eq_self hpget
        · subst hps
          rcases op
          all_goals exact alRemove_alSet_of_none hget f
      · simp [hh] at hcerr
  · intro huerr
    unfold MemoryStore.update at huerr ⊢
    rcases hload : storeLoad st.store fid with _ | existing
    · rfl
    · rw [hload] at huerr
      dsimp only at huerr ⊢
      rcases hval : registryValidate cfg existing.type
          (dictUpdate existing.payload patch.payload) with e | q
      · rfl
      · rw [hval] at huerr
        dsimp only at huerr ⊢
        by_cases hh : cfg.hookFails .UPDATE (some fid)
            (some { existing with payload := q, ts := now2 }) = true
        · simp only [hh, if_true]
          have hid : existing.id = fid := hwf.2 _ (alGet_some_mem hload)
          show storeSave (storeSave st.store _) existing = st.store
          unfold storeSave
          dsimp only
          rw [hid, alSet_alSet]
          rw [← hid]
          exact alSet_eq_self
            (show alGet st.store existing.id = some existing by
              rw [hid]; exact hload)
        · simp [hh] at huerr

/-- C2 witness: with an always-raising hook chain on a store holding
`exFactA`, a fresh commit and an update both surface `HookError` with
storage restored. -/
theorem C2_witness :
    (MemoryStore.commit cfgHookFail stA exFactB none false
        none none 2).1.store = stA.store ∧
    (MemoryStore.update cfgHookFail stA "A"
        { payload := [("age", .int 99)] } none none 3).1.store =
      stA.store :=
  ⟨(C2_hook_failure_restores_storage cfgHookFail stA exFactB none false
      none none 2 "A" { payload := [("age", .int 99)] } none none 3
      (by decide)).1 (by decide),
   (C2_hook_failure_restores_storage cfgHookFail stA exFactB none false
      none none 2 "A" { payload := [("age", .int 99)] } none none 3
      (by decide)).2 (by decide)⟩

/-- C1 amended: when a hook raises during `commit` or `update`, the
engine reverts the storage write but the transaction journal keeps the
entry `_log_tx` appended for the failed operation — not the unchanged
journal the claim describes.  Any commit surfacing `HookError` leaves
the journal equal to the prior journal plus exactly the `_log_tx` entry
built for the operation `commitPrep` resolved: its op and fact id are
those of the failed operation, and when no prior state was captured (a
first commit) the op is COMMIT (COMMIT_EPHEMERAL when ephemeral).
Independently, any update surfacing `HookError` extends the journal by
exactly one UPDATE entry for the targeted fact id. -/
theorem C1_amended_journal_keeps_entry (cfg : Config) (st : State)
    (fact : Fact) (sid : Option String) (eph : Bool) (a r : Option String)
    (now : Nat) (fid : String) (patch : Patch) (a2 r2 : Option String)
    (now2 : Nat) :
    ((MemoryStore.commit cfg st fact sid eph a r now).2 =
        .error .hookError →
      ∃ op ps f, commitPrep cfg st fact sid eph = .ok (op, ps, f) ∧
        (MemoryStore.commit cfg st fact sid eph a r now).1.tx_log =
          st.tx_log ++
            [mkTx op f.session_id (some f.id) ps (some f) a r
              (st.seq + 1) now] ∧
        (ps = none →
          op = if eph then Operation.COMMIT_EPHEMERAL
               else Operation.COMMIT)) ∧
    ((MemoryStore.update cfg st fid patch a2 r2 now2).2 =
        .error .hookError →
      ∃ tx, (MemoryStore.update cfg st fid patch a2 r2 now2).1.tx_log =
        st.tx_log ++ [tx] ∧ tx.op = .UPDATE ∧ tx.fact_id = some fid) := by
  constructor
  · intro hcerr
    unfold MemoryStore.commit at hcerr ⊢
    rcases hp : commitPrep cfg st fact sid eph with e | ⟨op, ps, f⟩
    · rw [hp] at hcerr
      simp at hcerr
      exact absurd hcerr (commitPrep_error_ne_hookError hp)
    · rw [hp] at hcerr
      dsimp only at hcerr ⊢
      by_cases hh : cfg.hookFails op (some f.id) (some f) = true
      · simp only [hh, if_true]
        refine ⟨op, ps, f, rfl, rfl, ?_⟩
        intro hps
        subst hps
        exact commitPrep_none_op hp
      · simp [hh] at hcerr
  · intro huerr
    unfold MemoryStore.update at huerr ⊢
    rcases hload : storeLoad st.store fid with _ | existing
    · rw [hload] at huerr
      simp at huerr
    · rw [hload] at huerr
      dsimp only at huerr ⊢
      rcases hval : registryValidate cfg existing.type
          (dictUpdate existing.payload patch.payload) with e | q
      · rw [hval] at huerr
        obtain ⟨msg, rfl⟩ := registryValidate_error hval
        simp at huerr
      · rw [hval] at huerr
        dsimp only at huerr ⊢
        by_cases hh : cfg.hookFails .UPDATE (some fid)
            (some { existing with payload := q, ts := now2 }) = true
        · simp only [hh, if_true]
          exact ⟨_, rfl, rfl, rfl⟩
        · simp [hh] at huerr

/-- C1 witness: with the always-raising hook chain, the failed first
commit of `exFactA` on the empty store appends exactly the resolved
`_log_tx` entry (a COMMIT, since no prior state was captured), and the
failed update of `"A"` on the store holding `exFactA` appends exactly
one UPDATE entry for `"A"`. -/
theorem C1_amended_witness :
    (∃ op ps f, commitPrep cfgHookFail st0 exFactA (some "s") false =
        .ok (op, ps, f) ∧
      (MemoryStore.commit cfgHookFail st0 exFactA (some "s") false
          none none 1).1.tx_log =
        st0.tx_log ++
          [mkTx op f.session_id (some f.id) ps (some f) none none
            (st0.seq + 1) 1] ∧
      (ps = none →
        op = if false then Operation.COMMIT_EPHEMERAL
             else Operation.COMMIT)) ∧
    (∃ tx, (MemoryStore.update cfgHookFail stA "A"
      { payload := [("age", .int 99)] } none none 3).1.tx_log =
      stA.tx_log ++ [tx] ∧ tx.op = .UPDATE ∧ tx.fact_id = some "A") :=
  ⟨(C1_amended_journal_keeps_entry cfgHookFail st0 exFactA (some "s")
      false none none 1 "A" { payload := [("age", .int 99)] }
      none none 3).1 (by decide),
   (C1_amended_journal_keeps_entry cfgHookFail stA exFactB none false
      none none 2 "A" { payload := [("age", .int 99)] }
      none none 3).2 (by decide)⟩

/-- C1 counterexample: a hook raising on the first commit of a fact
surfaces `HookError` and leaves storage empty, yet the journal holds one
entry recording the failed COMMIT of that fact — the claim that no
journal entry remains is false. -/
theorem C1_counterexample :
    (MemoryStore.commit cfgHookFail st0 exFactA (some "s") false
      none none 1).2 = .error .hookError ∧
    (MemoryStore.commit cfgHookFail st0 exFactA (some "s") false
      none none 1).1.store = [] ∧
    (MemoryStore.commit cfgHookFail st0 exFactA (some "s") false
      none none 1).1.tx_log.map (fun tx => (tx.op, tx.fact_id)) =
      [(.COMMIT, some "A")] := by
  decide

/-- C3 amended: the blocking and cooperative variants differ on
`discard_session` — only the cooperative `AsyncMemoryStore` notifies the
hooks, once, with the synthetic marker fact
`Fact(id="session", type="session", payload={}, session_id=session_id)`
under op DISCARD_SESSION; the blocking `MemoryStore.discard_session`
notifies no hook at all.  Both journal the discard and report the count. -/
theorem C3_amended_async_only_notifies (cfg : Config) (st : State)
    (sid : String) (now : Nat)
    (hne : (storeDeleteSession st.store sid).1 ≠ [])
    (hhook : cfg.hookFails .DISCARD_SESSION (some "")
      (some { id := "session", type := "session", payload := [],
              source := none, session_id := some sid, ts := now }) =
      false) :
    (AsyncMemoryStore.discard_session cfg st sid now).1.events =
      st.events ++ [(.DISCARD_SESSION, some "",
        some { id := "session", type := "session", payload := [],
               source := none, session_id := some sid, ts := now })] ∧
    (AsyncMemoryStore.discard_session cfg st sid now).2 =
      .ok (storeDeleteSession st.store sid).1.length ∧
    (MemoryStore.discard_session st sid now).1.events = st.events ∧
    (MemoryStore.discard_session st sid now).2 =
      .ok (storeDeleteSession st.store sid).1.length := by
  unfold AsyncMemoryStore.discard_session MemoryStore.discard_session
  rcases hdel : storeDeleteSession st.store sid with ⟨ids, store1⟩
  rw [hdel] at hne
  dsimp only at hne ⊢
  rcases ids with _ | ⟨i0, irest⟩
  · exact absurd rfl hne
  · simp [hhook]

/-- C3 amended witness: on the store holding the session-bound
`exFactE`, the async variant emits the marker notification and the sync
variant emits nothing. -/
theorem C3_amended_witness :
    (storeDeleteSession stE.store "s1").1 ≠ [] ∧
    ((AsyncMemoryStore.discard_session cfgPlain stE "s1" 2).1.events =
      stE.events ++ [(.DISCARD_SESSION, some "",
        some { id := "session", type := "session", payload := [],
               source := none, session_id := some "s1", ts := 2 })] ∧
     (AsyncMemoryStore.discard_session cfgPlain stE "s1" 2).2 =
       .ok (storeDeleteSession stE.store "s1").1.length ∧
     (MemoryStore.discard_session stE "s1" 2).1.events = stE.events ∧
     (MemoryStore.discard_session stE "s1" 2).2 =
       .ok (storeDeleteSession stE.store "s1").1.length) :=
  ⟨by decide,
   C3_amended_async_only_notifies cfgPlain stE "s1" 2 (by decide)
     (by decide)⟩

/-- C3 counterexample: the blocking variant's `discard_session` deletes
the session's one bound fact and journals the discard, but emits no hook
notification whatsoever — its notification trace is unchanged and
contains no DISCARD_SESSION event — while the cooperative variant does
notify; so the two variants do not have identical semantics and the
blocking variant does not notify hooks with the synthetic marker. -/
theorem C3_counterexample :
    (MemoryStore.discard_session stE "s1" 2).2 = .ok 1 ∧
    (MemoryStore.discard_session stE "s1" 2).1.events = stE.events ∧
    ((MemoryStore.discard_session stE "s1" 2).1.events.filter
      fun e => e.1 = .DISCARD_SESSION) = [] ∧
    (AsyncMemoryStore.discard_session cfgPlain stE "s1" 2).1.events ≠
      (MemoryStore.discard_session stE "s1" 2).1.events := by
  decide

/-- C10: if a hook raises while `rollback` is reverting its fetched
entries, rollback aborts with `HookError`; the journal is left exactly as
it was (no fetched entry is deleted), while the storage already holds the
inverse states of a nonempty prefix of the fetched entries — the prefix
ending at the entry whose notification failed. -/
theorem C10_rollback_hook_abort (cfg : Config) (st : State) (sid : String)
    (steps : Int)
    (herr : (MemoryStore.rollback cfg st sid steps).2 =
      .error .hookError) :
    (MemoryStore.rollback cfg st sid steps).1.tx_log = st.tx_log ∧
    ∃ i, i < (getTxLog st.tx_log sid steps.toNat 0).length ∧
      (MemoryStore.rollback cfg st sid steps).1.store =
        ((getTxLog st.tx_log sid steps.toNat 0).take (i + 1)).foldl
          (fun s e => (rollbackStep e s).1) st.store := by
  unfold MemoryStore.rollback at herr ⊢
  by_cases hs : steps ≤ 0
  · rw [if_pos hs] at herr
    simp at herr
  · rw [if_neg hs] at herr ⊢
    dsimp only at herr ⊢
    rcases hloop : rollbackLoop cfg (getTxLog st.tx_log sid steps.toNat 0)
        st.store st.events with ⟨⟨store1, evs1⟩, failed⟩
    rw [hloop] at herr
    dsimp only at herr ⊢
    rcases failed with _ | _
    · simp at herr
    · refine ⟨rfl, ?_⟩
      obtain ⟨i, hi, hfold⟩ := rollbackLoop_error cfg
        (getTxLog st.tx_log sid steps.toNat 0) st.store st.events
        (by rw [hloop])
      rw [hloop] at hfold
      exact ⟨i, hi, hfold⟩

/-- C10 witness: under `cfgHookFailOldTs`, rolling back the two journal
entries of `stRB` fails on the first inverse's UPDATE notification; the
journal keeps both entries and the store holds the applied inverse. -/
theorem C10_witness :
    (MemoryStore.rollback cfgHookFailOldTs stRB "s" 2).2 =
      .error .hookError ∧
    ((MemoryStore.rollback cfgHookFailOldTs stRB "s" 2).1.tx_log =
      stRB.tx_log ∧
     ∃ i, i < (getTxLog stRB.tx_log "s" (Int.toNat 2) 0).length ∧
       (MemoryStore.rollback cfgHookFailOldTs stRB "s" 2).1.store =
         ((getTxLog stRB.tx_log "s" (Int.toNat 2) 0).take (i + 1)).foldl
           (fun s e => (rollbackStep e s).1) stRB.store) :=
  ⟨by decide, C10_rollback_hook_abort cfgHookFailOldTs stRB "s" 2
    (by decide)⟩

/-- C8: for an existing fact, `update` applies a shallow merge at the
top level of the payload — each merged key reads from the patch when the
patch mentions it (replacing the whole previous value, nested dicts
included) and from the prior payload otherwise — then re-runs schema
validation on the merged payload, refreshes `ts` to the operation time,
and persists the result under the same id, journaling and notifying
UPDATE. -/
theorem C8_update_shallow_merge (cfg : Config) (st : State) (fid : String)
    (patch : Patch) (a r : Option String) (now : Nat) (existing : Fact)
    (q : List (String × Value)) (hwf : StoreWF st.store)
    (hload : storeLoad st.store fid = some existing)
    (hval : registryValidate cfg existing.type
      (dictUpdate existing.payload patch.payload) = .ok q)
    (hnd : (patch.payload.map Prod.fst).Nodup)
    (hhook : cfg.hookFails .UPDATE (some fid)
      (some { existing with payload := q, ts := now }) = false) :
    MemoryStore.update cfg st fid patch a r now =
      ({ store := alSet st.store fid { existing with payload := q, ts := now },
         tx_log := st.tx_log ++
           [mkTx .UPDATE existing.session_id (some fid) (some existing)
             (some { existing with payload := q, ts := now }) a r
             (st.seq + 1) now],
         seq := st.seq + 1,
         events := st.events ++
           [(.UPDATE, some fid,
             some { existing with payload := q, ts := now })] },
       .ok fid) ∧
    (∀ kk, alGet (dictUpdate existing.payload patch.payload) kk =
      match alGet patch.payload kk with
      | some v => some v
      | none => alGet existing.payload kk) := by
  have hid : existing.id = fid := hwf.2 _ (alGet_some_mem hload)
  refine ⟨?_, fun kk => alGet_dictUpdate _ _ kk hnd⟩
  rw [update_of_load hload hval hhook]
  unfold storeSave
  dsimp only
  rw [hid]

/-- C8 witness: updating the nested-payload fact `exFactM` replaces the
whole nested `sub` dict, adds `y`, keeps `keep` and `x`, and refreshes
`ts`. -/
theorem C8_update_shallow_merge_witness :
    MemoryStore.update cfgPlain stM "M"
      { payload := [("sub", .obj [("c", .int 3)]), ("y", .int 9)] }
      none none 6 =
      ({ store := alSet stM.store "M" { exFactM with payload := dictUpdate exFactM.payload [("sub", .obj [("c", .int 3)]), ("y", .int 9)], ts := 6 },
         tx_log := stM.tx_log ++
           [mkTx .UPDATE exFactM.session_id (some "M") (some exFactM)
             (some { exFactM with payload := dictUpdate exFactM.payload [("sub", .obj [("c", .int 3)]), ("y", .int 9)], ts := 6 }) none none (stM.seq + 1) 6],
         seq := stM.seq + 1,
         events := stM.events ++
           [(.UPDATE, some "M",
             some { exFactM with payload := dictUpdate exFactM.payload [("sub", .obj [("c", .int 3)]), ("y", .int 9)], ts := 6 })] },
       .ok "M") ∧
    (∀ kk, alGet (dictUpdate exFactM.payload
        [("sub", .obj [("c", .int 3)]), ("y", .int 9)]) kk =
      match alGet [("sub", Value.obj [("c", .int 3)]), ("y", .int 9)] kk
        with
      | some v => some v
      | none => alGet exFactM.payload kk) :=
  C8_update_shallow_merge cfgPlain stM "M"
    { payload := [("sub", .obj [("c", .int 3)]), ("y", .int 9)] }
    none none 6 exFactM (dictUpdate exFactM.payload
      [("sub", .obj [("c", .int 3)]), ("y", .int 9)])
    (by decide) (by decide) (by decide) (by decide) (by decide)

/-- C9: `commit` mutates its `Fact` argument in place; a successful call
returns the id of the caller's own (mutated) fact object, whose payload
is the validated (normalized) payload, whose `session_id` is overwritten
whenever a truthy `session_id` argument is supplied, and whose `id` has
been replaced by the matched existing fact's id whenever the mutable
singleton resolution found a match.  (In this embedding the mutated
argument is the fact returned alongside the id.) -/
theorem C9_commit_mutates_argument (cfg : Config) (st : State)
    (fact : Fact) (sid : Option String) (eph : Bool) (a r : Option String)
    (now : Nat) (rid : String) (rf : Fact)
    (h : (MemoryStore.commit cfg st fact sid eph a r now).2 =
      .ok (rid, rf)) :
    rid = rf.id ∧
    (∃ q, registryValidate cfg fact.type fact.payload = .ok q ∧
      rf.payload = q ∧ rf.type = fact.type ∧ rf.ts = fact.ts) ∧
    (∀ s, sid = some s → s ≠ "" → rf.session_id = some s) ∧
    (∀ c k q m ms, alGet cfg.constraints fact.type = some c →
      c.singleton_key = some k → k ≠ "" →
      registryValidate cfg fact.type fact.payload = .ok q →
      pyGet q k ≠ .null → c.immutable = false →
      storeQuery st.store (some fact.type)
        [("payload." ++ k, pyGet q k)] = m :: ms →
      rf.id = m.id) := by
  unfold MemoryStore.commit at h
  rcases hp : commitPrep cfg st fact sid eph with e | ⟨op, ps, f⟩
  · rw [hp] at h
    simp at h
  · rw [hp] at h
    dsimp only at h
    by_cases hh : cfg.hookFails op (some f.id) (some f) = true
    · simp [hh] at h
    · simp only [hh, Bool.false_eq_true, if_false] at h
      obtain ⟨hid, hrf⟩ := Prod.mk.injEq .. ▸ Except.ok.inj h
      subst hrf
      refine ⟨hid.symm, ?_, ?_, ?_⟩
      · obtain ⟨q, hq, hform⟩ := commitPrep_ok_fact hp
        refine ⟨q, hq, ?_⟩
        rcases hform with rfl | ⟨mid, rfl⟩
        · simp [bindSession_payload, bindSession_type, bindSession_ts]
        · simp only []
          constructor
          · show (bindSession { fact with payload := q } sid).payload = q
            simp [bindSession_payload]
          constructor
          · show (bindSession { fact with payload := q } sid).type =
              fact.type
            simp [bindSession_type]
          · show (bindSession { fact with payload := q } sid).ts = fact.ts
            simp [bindSession_ts]
      · intro s hs hsne
        obtain ⟨q, hq, hform⟩ := commitPrep_ok_fact hp
        subst hs
        rcases hform with rfl | ⟨mid, rfl⟩
        · rw [bindSession_some hsne]
        · show (bindSession { fact with payload := q } (some s)).session_id
            = some s
          rw [bindSession_some hsne]
      · intro c k q m ms hc hsk hk hq hkv him hquery
        have hsingle := commitPrep_singleton_match sid eph hq hc hsk hk
          hkv hquery him
        rw [hp] at hsingle
        have h2 := Except.ok.inj hsingle
        have h3 := congrArg (fun x => x.2.2.id) h2
        simpa using h3

/-- C9 witness: the second singleton commit of the scenario returns the
first fact's id `"A"` on the mutated fact object, whose id is the
matched id and whose session binding is the supplied session. -/
theorem C9_witness :
    (MemoryStore.commit cfgSingleton
      (MemoryStore.commit cfgSingleton st0 exFactA (some "s") false
        none none 1).1 exFactB (some "s") false none none 2).2 =
      .ok ("A", { exFactB with id := "A", session_id := some "s" }) ∧
    ("A" : String) =
      ({ exFactB with id := "A", session_id := some "s" } : Fact).id ∧
    ({ exFactB with id := "A", session_id := some "s" } : Fact).session_id
      = some "s" :=
  ⟨by decide,
   (C9_commit_mutates_argument cfgSingleton
     (MemoryStore.commit cfgSingleton st0 exFactA (some "s") false
       none none 1).1 exFactB (some "s") false none none 2 "A"
     { exFactB with id := "A", session_id := some "s" } (by decide)).1,
   (C9_commit_mutates_argument cfgSingleton
     (MemoryStore.commit cfgSingleton st0 exFactA (some "s") false
       none none 1).1 exFactB (some "s") false none none 2 "A"
     { exFactB with id := "A", session_id := some "s" }
     (by decide)).2.2.1 "s" rfl (by decide)⟩

/-- C4: for a type under a mutable singleton constraint on key `k`, two
successive commits (into an empty fact store) whose validated payloads
carry the same non-null value for `k`: the second commit returns the id
produced by the first, exactly one live fact with that key value exists
afterwards (indeed the store holds exactly that one fact), its payload is
the second call's validated payload, and the journal gained two entries —
the first a COMMIT, the second an UPDATE whose `fact_before` is the first
fact's prior state and whose `fact_id` is the retained id. -/
theorem C4_mutable_singleton_two_commits (cfg : Config) (st : State)
    (f1 f2 : Fact) (s1 s2 a1 r1 a2 r2 : Option String) (n1 n2 : Nat)
    (c : Constraint) (k : String) (q1 q2 : List (String × Value))
    (v : Value)
    (hstore : st.store = [])
    (hc : alGet cfg.constraints f1.type = some c)
    (hsk : c.singleton_key = some k) (him : c.immutable = false)
    (hk : k ≠ "") (htype : f2.type = f1.type)
    (hv1 : registryValidate cfg f1.type f1.payload = .ok q1)
    (hv2 : registryValidate cfg f2.type f2.payload = .ok q2)
    (hkv1 : pyGet q1 k = v) (hkv2 : pyGet q2 k = v) (hvn : v ≠ .null)
    (hsplit : splitPath ("payload." ++ k) = ["payload", k])
    (hhooks : ∀ o i d, cfg.hookFails o i d = false) :
    ∃ st1 f1p st2 f2p,
      MemoryStore.commit cfg st f1 s1 false a1 r1 n1 =
        (st1, .ok (f1.id, f1p)) ∧
      MemoryStore.commit cfg st1 f2 s2 false a2 r2 n2 =
        (st2, .ok (f1.id, f2p)) ∧
      f2p.payload = q2 ∧
      st2.store = [(f1.id, f2p)] ∧
      storeQuery st2.store (some f2.type) [("payload." ++ k, v)] =
        [f2p] ∧
      ∃ e1 e2, st2.tx_log = st.tx_log ++ [e1, e2] ∧
        e1.op = .COMMIT ∧ e2.op = .UPDATE ∧
        e2.fact_before = some f1p ∧ e2.fact_id = some f1.id := by
  have hkv1n : pyGet q1 k ≠ .null := by rw [hkv1]; exact hvn
  have hkv2n : pyGet q2 k ≠ .null := by rw [hkv2]; exact hvn
  set f1p := bindSession { f1 with payload := q1 } s1 with hf1p
  have hid1 : f1p.id = f1.id := by rw [hf1p, bindSession_id]
  have htype1 : f1p.type = f1.type := by rw [hf1p, bindSession_type]
  have hpay1 : f1p.payload = q1 := by rw [hf1p, bindSession_payload]
  have hq1 : storeQuery st.store (some f1.type)
      [("payload." ++ k, pyGet q1 k)] = [] := by
    rw [hstore]
    rfl
  have hprep1 : commitPrep cfg st f1 s1 false = .ok (.COMMIT, none, f1p) := by
    rw [commitPrep_singleton_nomatch hv1 hc hsk hk hkv1n hq1]
    unfold commitResolveId
    have : storeLoad st.store f1p.id = none := by
      rw [hstore]
      rfl
    rw [this]
    rfl
  have hcommit1 := commit_of_prep a1 r1 n1 hprep1 (hhooks _ _ _)
  have hstore1 : storeSave st.store f1p = [(f1p.id, f1p)] := by
    rw [hstore]
    rfl
  -- the second commit's singleton query finds the first fact
  have hqmatch : queryMatches (some f2.type)
      [("payload." ++ k, pyGet q2 k)] f1p = true := by
    apply queryMatches_eval (by rw [htype1, htype])
    intro kv hkv
    rcases List.mem_singleton.mp hkv with rfl
    show getValueByPath f1p ("payload." ++ k) = pyGet q2 k
    rw [getValueByPath_payload hsplit, hpay1, hkv1, hkv2]
  have hq2 : storeQuery (storeSave st.store f1p) (some f2.type)
      [("payload." ++ k, pyGet q2 k)] = [f1p] := by
    rw [hstore1]
    unfold storeQuery
    simp [hqmatch]
  set st1 : State :=
    { store := storeSave st.store f1p,
      tx_log := st.tx_log ++
        [mkTx .COMMIT f1p.session_id (some f1p.id) none (some f1p) a1 r1
          (st.seq + 1) n1],
      seq := st.seq + 1,
      events := st.events ++ [(.COMMIT, some f1p.id, some f1p)] }
    with hst1
  set f2p : Fact := { bindSession { f2 with payload := q2 } s2
    with id := f1p.id } with hf2p
  have hid2 : f2p.id = f1.id := by rw [hf2p]; exact hid1
  have htype2 : f2p.type = f2.type := by
    rw [hf2p]
    show (bindSession { f2 with payload := q2 } s2).type = f2.type
    rw [bindSession_type]
  have hpay2 : f2p.payload = q2 := by
    rw [hf2p]
    show (bindSession { f2 with payload := q2 } s2).payload = q2
    rw [bindSession_payload]
  have hc2 : alGet cfg.constraints f2.type = some c := by rw [htype, hc]
  have hprep2 : commitPrep cfg st1 f2 s2 false =
      .ok (.UPDATE, some f1p, f2p) := by
    exact commitPrep_singleton_match s2 false hv2 hc2 hsk hk hkv2n hq2 him
  have hcommit2 := commit_of_prep a2 r2 n2 hprep2 (hhooks _ _ _)
  have hstore2 : storeSave st1.store f2p = [(f1p.id, f2p)] := by
    rw [hst1]
    show alSet (storeSave st.store f1p) f2p.id f2p = _
    rw [hstore1, hid2, ← hid1]
    unfold alSet
    simp
  refine ⟨st1, f1p,
    { store := storeSave st1.store f2p,
      tx_log := st1.tx_log ++
        [mkTx .UPDATE f2p.session_id (some f2p.id) (some f1p) (some f2p)
          a2 r2 (st1.seq + 1) n2],
      seq := st1.seq + 1,
      events := st1.events ++ [(.UPDATE, some f2p.id, some f2p)] },
    f2p, ?_, ?_, hpay2, ?_, ?_, ?_⟩
  · rw [hcommit1, hid1]
  · rw [hcommit2, hid2]
  · show storeSave st1.store f2p = [(f1.id, f2p)]
    rw [hstore2, hid1]
  · show storeQuery (storeSave st1.store f2p) (some f2.type)
      [("payload." ++ k, v)] = [f2p]
    rw [hstore2]
    unfold storeQuery
    have : queryMatches (some f2.type) [("payload." ++ k, v)] f2p =
        true := by
      apply queryMatches_eval htype2
      intro kv hkv
      rcases List.mem_singleton.mp hkv with rfl
      show getValueByPath f2p ("payload." ++ k) = v
      rw [getValueByPath_payload hsplit, hpay2, hkv2]
    simp [this]
  · refine ⟨mkTx .COMMIT f1p.session_id (some f1p.id) none (some f1p)
        a1 r1 (st.seq + 1) n1,
      mkTx .UPDATE f2p.session_id (some f2p.id) (some f1p) (some f2p)
        a2 r2 (st1.seq + 1) n2, ?_, rfl, rfl, rfl, ?_⟩
    · show st1.tx_log ++ [_] = st.tx_log ++ [_, _]
      rw [hst1]
      simp
    · show some f2p.id = some f1.id
      rw [hid2]

/-- C4 witness: the `user`/`email` scenario — committing age 20 then age
25 under the same email yields one fact with the second payload and a
COMMIT followed by an UPDATE journal entry. -/
theorem C4_witness :
    ∃ st1 f1p st2 f2p,
      MemoryStore.commit cfgSingleton st0 exFactA (some "s") false
        none none 1 = (st1, .ok ("A", f1p)) ∧
      MemoryStore.commit cfgSingleton st1 exFactB (some "s") false
        none none 2 = (st2, .ok ("A", f2p)) ∧
      f2p.payload = exFactB.payload ∧
      st2.store = [("A", f2p)] ∧
      storeQuery st2.store (some "user")
        [("payload." ++ "email", .str "a@x")] = [f2p] ∧
      ∃ e1 e2, st2.tx_log = st0.tx_log ++ [e1, e2] ∧
        e1.op = .COMMIT ∧ e2.op = .UPDATE ∧
        e2.fact_before = some f1p ∧ e2.fact_id = some "A" :=
  C4_mutable_singleton_two_commits cfgSingleton st0 exFactA exFactB
    (some "s") (some "s") none none none none 1 2
    { singleton_key := some "email" } "email" exFactA.payload
    exFactB.payload (.str "a@x") (by decide) (by decide) (by decide)
    (by decide) (by decide) (by decide) (by decide) (by decide)
    (by decide) (by decide) (by decide) (by decide)
    (fun _ _ _ => rfl)

/-- C7: commit a fact F into an empty store within a session, then
delete it.  `rollback(session, 1)` recreates F so that `get` returns the
deleted fact exactly as it was, with hooks notified as COMMIT; the
consumed DELETE journal entry is deleted by uuid and no new journal
entry is generated (one COMMIT entry remains).  A second
`rollback(session, 1)` then removes F so that `get` returns null and the
journal is empty. -/
theorem C7_rollback_across_delete (cfg : Config) (st : State) (f : Fact)
    (s : String) (q : List (String × Value)) (a1 r1 a2 r2 : Option String)
    (n1 n2 : Nat)
    (hstore : st.store = []) (hlog : st.tx_log = [])
    (hs : s ≠ "") (hfid : f.id ≠ "")
    (hc : alGet cfg.constraints f.type = none)
    (hv : registryValidate cfg f.type f.payload = .ok q)
    (hhooks : ∀ o i d, cfg.hookFails o i d = false) :
    ∃ st1 fp st2 st3 st4,
      MemoryStore.commit cfg st f (some s) false a1 r1 n1 =
        (st1, .ok (f.id, fp)) ∧
      MemoryStore.delete cfg st1 (some s) f.id a2 r2 n2 =
        (st2, .ok f.id) ∧
      MemoryStore.rollback cfg st2 s 1 = (st3, .ok ()) ∧
      MemoryStore.get st3 f.id = some fp ∧
      st3.events = st2.events ++ [(.COMMIT, some f.id, some fp)] ∧
      st3.tx_log.map TxEntry.op = [.COMMIT] ∧
      MemoryStore.rollback cfg st3 s 1 = (st4, .ok ()) ∧
      MemoryStore.get st4 f.id = none ∧
      st4.tx_log = [] := by
  set fp : Fact := { f with payload := q, session_id := some s }
    with hfp
  have hfpid : fp.id = f.id := rfl
  have hfpsess : fp.session_id = some s := rfl
  have hbind : bindSession { f with payload := q } (some s) = fp := by
    rw [bindSession_some hs]
  have hprep : commitPrep cfg st f (some s) false =
      .ok (.COMMIT, none, fp) := by
    rw [commitPrep_no_constraint hv hc, hbind]
    unfold commitResolveId
    have hl : storeLoad st.store fp.id = none := by
      rw [hstore]
      rfl
    rw [hl]
    rfl
  have hcommit := commit_of_prep a1 r1 n1 hprep (hhooks _ _ _)
  set tx1 := mkTx .COMMIT fp.session_id (some fp.id) none (some fp) a1 r1
    (st.seq + 1) n1 with htx1
  set st1 : State :=
    { store := storeSave st.store fp, tx_log := st.tx_log ++ [tx1],
      seq := st.seq + 1,
      events := st.events ++ [(.COMMIT, some fp.id, some fp)] } with hst1
  have hstore1 : st1.store = alSet [] fp.id fp := by
    show storeSave st.store fp = alSet [] fp.id fp
    rw [hstore]
    rfl
  have hload1 : storeLoad st1.store f.id = some fp := by
    rw [show storeLoad st1.store f.id = alGet st1.store f.id from rfl,
      hstore1, ← hfpid]
    exact alGet_alSet_self [] fp.id fp
  have hdelete := delete_of_load (some s) a2 r2 n2 hload1 (hhooks _ _ _)
  set tx2 := mkTx .DELETE (some s) (some f.id) (some fp) none a2 r2
    (st1.seq + 1) n2 with htx2
  set st2 : State :=
    { store := storeDelete st1.store f.id, tx_log := st1.tx_log ++ [tx2],
      seq := st1.seq + 1,
      events := st1.events ++ [(.DELETE, some f.id, some fp)] } with hst2
  have hstore2 : st2.store = [] := by
    show storeDelete st1.store f.id = []
    rw [show storeDelete st1.store f.id = alRemove st1.store f.id
        from rfl, hstore1, ← hfpid]
    exact alRemove_alSet_of_none (by simp [alGet]) fp
  have hlog2 : st2.tx_log = [tx1, tx2] := by
    show st1.tx_log ++ [tx2] = [tx1, tx2]
    show st.tx_log ++ [tx1] ++ [tx2] = [tx1, tx2]
    rw [hlog]
    rfl
  have huuid : tx1.uuid ≠ tx2.uuid := by
    show st.seq + 1 ≠ st1.seq + 1
    show st.seq + 1 ≠ st.seq + 1 + 1
    omega
  have hsess1 : tx1.session_id = some s := hfpsess
  have hsess2 : tx2.session_id = some s := rfl
  have hlogs1 : getTxLog st2.tx_log s 1 0 = [tx2] := by
    rw [hlog2]
    unfold getTxLog
    simp [hsess1, hsess2]
  have hstep2 : ∀ store : Store, rollbackStep tx2 store =
      (storeSave store fp, some (.COMMIT, some f.id, some fp)) := by
    intro store
    rw [htx2]
    unfold rollbackStep mkTx
    simp
  have hloop1 : ∀ (store : Store) (evs : List HookEvent),
      rollbackLoop cfg [tx2] store evs =
      ((storeSave store fp,
        evs ++ [(.COMMIT, some f.id, some fp)]), false) := by
    intro store evs
    simp [rollbackLoop, hstep2 store, hhooks]
  set st3 : State :=
    { store := storeSave st2.store fp,
      tx_log := deleteTxs st2.tx_log [tx2.uuid], seq := st2.seq,
      events := st2.events ++ [(.COMMIT, some f.id, some fp)] } with hst3
  have hroll1 : MemoryStore.rollback cfg st2 s 1 = (st3, .ok ()) := by
    rw [rollback_of_loop (by norm_num) hlogs1
      (hloop1 st2.store st2.events)]
    rfl
  have hlog3 : st3.tx_log = [tx1] := by
    show deleteTxs st2.tx_log [tx2.uuid] = [tx1]
    rw [hlog2]
    unfold deleteTxs
    simp [huuid]
  have hstore3 : st3.store = alSet [] fp.id fp := by
    show storeSave st2.store fp = alSet [] fp.id fp
    rw [show storeSave st2.store fp = alSet st2.store fp.id fp from rfl,
      hstore2]
  have hget3 : MemoryStore.get st3 f.id = some fp := by
    show alGet st3.store f.id = some fp
    rw [hstore3, ← hfpid]
    exact alGet_alSet_self [] fp.id fp
  have hlogs2 : getTxLog st3.tx_log s 1 0 = [tx1] := by
    rw [hlog3]
    unfold getTxLog
    simp [hsess1]
  have hstep1 : ∀ store : Store, rollbackStep tx1 store =
      (storeDelete store fp.id, some (.DELETE, some fp.id, none)) := by
    intro store
    rw [htx1]
    unfold rollbackStep mkTx
    have hne : ¬fp.id = "" := by rw [hfpid]; exact hfid
    simp [hne]
  have hloop2 : ∀ (store : Store) (evs : List HookEvent),
      rollbackLoop cfg [tx1] store evs =
      ((storeDelete store fp.id,
        evs ++ [(.DELETE, some fp.id, none)]), false) := by
    intro store evs
    simp [rollbackLoop, hstep1 store, hhooks]
  set st4 : State :=
    { store := storeDelete st3.store fp.id,
      tx_log := deleteTxs st3.tx_log [tx1.uuid], seq := st3.seq,
      events := st3.events ++ [(.DELETE, some fp.id, none)] } with hst4
  have hroll2 : MemoryStore.rollback cfg st3 s 1 = (st4, .ok ()) := by
    rw [rollback_of_loop (by norm_num) hlogs2
      (hloop2 st3.store st3.events)]
    rfl
  have hstore4 : st4.store = [] := by
    show storeDelete st3.store fp.id = []
    rw [show storeDelete st3.store fp.id = alRemove st3.store fp.id
        from rfl, hstore3]
    exact alRemove_alSet_of_none (by simp [alGet]) fp
  have hget4 : MemoryStore.get st4 f.id = none := by
    show alGet st4.store f.id = none
    rw [hstore4]
    rfl
  have hlog4 : st4.tx_log = [] := by
    show deleteTxs st3.tx_log [tx1.uuid] = []
    rw [hlog3]
    unfold deleteTxs
    simp
  refine ⟨st1, fp, st2, st3, st4, ?_, ?_, hroll1, hget3, ?_, ?_, hroll2,
    hget4, hlog4⟩
  · rw [hcommit, hfpid]
  · exact hdelete
  · rw [hst3]
  · rw [hlog3, htx1]
    rfl

/-- C7 witness: the scenario on `exFactA` in session `"s"`. -/
theorem C7_witness :
    ∃ st1 fp st2 st3 st4,
      MemoryStore.commit cfgPlain st0 exFactA (some "s") false
        none none 1 = (st1, .ok ("A", fp)) ∧
      MemoryStore.delete cfgPlain st1 (some "s") "A" none none 2 =
        (st2, .ok "A") ∧
      MemoryStore.rollback cfgPlain st2 "s" 1 = (st3, .ok ()) ∧
      MemoryStore.get st3 "A" = some fp ∧
      st3.events = st2.events ++ [(.COMMIT, some "A", some fp)] ∧
      st3.tx_log.map TxEntry.op = [.COMMIT] ∧
      MemoryStore.rollback cfgPlain st3 "s" 1 = (st4, .ok ()) ∧
      MemoryStore.get st4 "A" = none ∧
      st4.tx_log = [] :=
  C7_rollback_across_delete cfgPlain st0 exFactA "s" exFactA.payload
    none none none none 1 2 (by decide) (by decide) (by decide)
    (by decide) (by decide) (by decide) (fun _ _ _ => rfl)

end Memstate
